import Mathlib

/-!
Verification model of the email-quote system's core services.

Each definition is a shallow embedding of a function of the Python source:
* `PricingFormulaService` — `app/services/pricing_formula_service.py`
* `PricingService` — `app/services/pricing_service.py`
* `QuoteService` / `EmailService` / scheduler — the orchestration pipeline
* `OAuthService` — `app/services/oauth_service.py`

Machine floats of the source are modelled as rationals (`ℚ`); every
concrete value exercised below is exactly representable in both, so the
arithmetic agrees with IEEE-754 on those inputs.  Times are integer
seconds.  External collaborators (IMAP, SMTP, the AI classifier, PDF
rendering, Fernet encryption, the Google token endpoint) enter as oracle
parameters, mirroring only their interface.
-/

namespace EmailQuote

/-- ASCII word character, Python regex `\w` (source formulas are ASCII). -/
def isWordChar (c : Char) : Bool :=
  (('a' ≤ c ∧ c ≤ 'z') ∨ ('A' ≤ c ∧ c ≤ 'Z') ∨ ('0' ≤ c ∧ c ≤ '9') ∨ c = '_' : Bool)

/-- Python regex `\s` / `str.strip` whitespace set (ASCII part). -/
def isSpaceChar (c : Char) : Bool :=
  c = ' ' ∨ c = '\t' ∨ c = '\n' ∨ c = '\x0d' ∨ c = '\x0b' ∨ c = '\x0c'

/-- `str.strip()`: drop leading and trailing whitespace. -/
def pyStrip (s : List Char) : List Char :=
  ((s.dropWhile isSpaceChar).reverse.dropWhile isSpaceChar).reverse

/-!
### Exact rational arithmetic

The library arithmetic on `ℚ` is `@[irreducible]`, so the model computes
with the following definitionally-reducing operations; each is proved equal
to the corresponding library operation.
-/

def qadd (a b : ℚ) : ℚ := mkRat (a.num * b.den + b.num * a.den) (a.den * b.den)

def qsub (a b : ℚ) : ℚ := mkRat (a.num * b.den - b.num * a.den) (a.den * b.den)

def qmul (a b : ℚ) : ℚ := mkRat (a.num * b.num) (a.den * b.den)

def qdiv (a b : ℚ) : ℚ := Rat.divInt (a.num * b.den) (a.den * b.num)

def qneg (a : ℚ) : ℚ := mkRat (-a.num) a.den

def qabs (a : ℚ) : ℚ := mkRat a.num.natAbs a.den

/-- Floor of a rational (denominator is positive, so Euclidean division
is floor division). -/
def qfloor (a : ℚ) : Int := Int.ediv a.num a.den

theorem qadd_eq (a b : ℚ) : qadd a b = a + b := (Rat.add_def' a b).symm

theorem qsub_eq (a b : ℚ) : qsub a b = a - b := (Rat.sub_def' a b).symm

theorem qmul_eq (a b : ℚ) : qmul a b = a * b := by
  rw [qmul, Rat.mul_def, Rat.normalize_eq_mkRat]

theorem qdiv_eq (a b : ℚ) : qdiv a b = a / b := (Rat.div_def' a b).symm

theorem qneg_eq (a : ℚ) : qneg a = -a := by
  rw [qneg, ← Rat.neg_mkRat, Rat.mkRat_self]

/-- `pat` is a prefix of `s` (character-exact). -/
def listPrefixOf : List Char → List Char → Bool
  | [], _ => true
  | _ :: _, [] => false
  | a :: as, b :: bs => a = b && listPrefixOf as bs

/-- `pat` (given in lowercase) is a prefix of `s` up to ASCII case,
modelling `re.IGNORECASE` literal matching. -/
def listPrefixOfCI : List Char → List Char → Bool
  | [], _ => true
  | _ :: _, [] => false
  | a :: as, b :: bs => a = b.toLower && listPrefixOfCI as bs

/-- Right word-boundary (`\b`) test for the remainder after a candidate match. -/
def boundaryAfter : List Char → Bool
  | [] => true
  | c :: _ => !isWordChar c

/-- A whole-word occurrence of `name` starts here: `name` is a prefix and the
next character (if any) is not a word character.  The left boundary is the
`prev` flag threaded by the scanners below. -/
def wordMatchHere (name s : List Char) : Bool :=
  listPrefixOf name s && boundaryAfter (s.drop name.length)

/-- Word-character-ness of the last character of `name` (left-boundary state
after skipping a match). -/
def lastIsWord (name : List Char) (dflt : Bool) : Bool :=
  match name.getLast? with
  | some c => isWordChar c
  | none => dflt

/-- Scanner for `re.sub(r'\b name \b', repl, s)`: replace every
non-overlapping whole-word occurrence of `name`, left to right.  `prev` says
whether the character just before the current position is a word character;
`skip` counts characters of an already-emitted match still to consume. -/
def replaceWordAux (name repl : List Char) : Nat → Bool → List Char → List Char
  | _, _, [] => []
  | skip + 1, prev, _ :: cs => replaceWordAux name repl skip prev cs
  | 0, prev, c :: cs =>
    if !prev && wordMatchHere name (c :: cs) then
      repl ++ replaceWordAux name repl (name.length - 1) (lastIsWord name prev) cs
    else
      c :: replaceWordAux name repl 0 (isWordChar c) cs

/-- Does any whole-word occurrence of `name` exist in `s` (same boundary
discipline as `replaceWordAux`)? -/
def hasWordMatch (name : List Char) : Bool → List Char → Bool
  | _, [] => false
  | prev, c :: cs =>
    (!prev && wordMatchHere name (c :: cs)) || hasWordMatch name (isWordChar c) cs

/-- `re.sub(r'\b'+re.escape(name)+r'\b', repl, s)` of the source. -/
def replaceWord (name repl s : List Char) : List Char :=
  replaceWordAux name repl 0 false s

theorem replaceWordAux_of_no_match (name repl : List Char) :
    ∀ (s : List Char) (prev : Bool), hasWordMatch name prev s = false →
      replaceWordAux name repl 0 prev s = s := by
  intro s
  induction s with
  | nil => intro prev _; simp [replaceWordAux]
  | cons c cs ih =>
    intro prev h
    simp only [hasWordMatch, Bool.or_eq_false_iff, Bool.and_eq_false_iff] at h
    obtain ⟨h1, h2⟩ := h
    simp only [replaceWordAux]
    have hcond : (!prev && wordMatchHere name (c :: cs)) = false := by
      rcases h1 with h1 | h1 <;> simp [h1]
    simp [hcond, ih _ h2]

/-- Stable insertion keeping the list sorted by key length, descending;
equal lengths keep their original relative order.  Models
`sorted(context.keys(), key=len, reverse=True)` (CPython sort is stable). -/
def insertByLenDesc (x : String × ℚ) : List (String × ℚ) → List (String × ℚ)
  | [] => [x]
  | y :: ys =>
    if y.1.length ≤ x.1.length then x :: y :: ys else y :: insertByLenDesc x ys

/-- Sort the substitution context longest-name-first (stable). -/
def sortVarsDesc : List (String × ℚ) → List (String × ℚ)
  | [] => []
  | x :: xs => insertByLenDesc x (sortVarsDesc xs)

theorem mem_insertByLenDesc {x y : String × ℚ} {l : List (String × ℚ)}
    (h : y ∈ insertByLenDesc x l) : y = x ∨ y ∈ l := by
  induction l with
  | nil =>
    simp only [insertByLenDesc, List.mem_singleton] at h
    exact Or.inl h
  | cons z zs ih =>
    simp only [insertByLenDesc] at h
    by_cases hc : z.1.length ≤ x.1.length
    · simp only [hc, if_true, List.mem_cons] at h
      rcases h with h | h | h
      · exact Or.inl h
      · exact Or.inr (by simp [h])
      · exact Or.inr (List.mem_cons_of_mem _ h)
    · simp only [hc, if_false, List.mem_cons] at h
      rcases h with h | h
      · exact Or.inr (by simp [h])
      · rcases ih h with h | h
        · exact Or.inl h
        · exact Or.inr (List.mem_cons_of_mem _ h)

theorem mem_sortVarsDesc {y : String × ℚ} {l : List (String × ℚ)}
    (h : y ∈ sortVarsDesc l) : y ∈ l := by
  induction l with
  | nil => simp [sortVarsDesc] at h
  | cons x xs ih =>
    simp only [sortVarsDesc] at h
    rcases mem_insertByLenDesc h with h | h
    · simp [h]
    · exact List.mem_cons_of_mem _ (ih h)

/-- Decimal digits of `n` (auxiliary, fuelled). -/
def natDigitsAux : Nat → Nat → List Char
  | 0, _ => []
  | fuel + 1, n =>
    if n = 0 then [] else natDigitsAux fuel (n / 10) ++ [Char.ofNat (48 + n % 10)]

/-- Decimal rendering of a natural number. -/
def natToChars (n : Nat) : List Char :=
  if n = 0 then ['0'] else natDigitsAux (n + 1) n

/-- Least `k` (searching upward, fuelled) with `n·10^k` divisible by `d`. -/
def findDecExpAux (n d : Nat) : Nat → Nat → Option Nat
  | _, 0 => none
  | k, fuel + 1 =>
    if n * 10 ^ k % d = 0 then some k else findDecExpAux n d (k + 1) fuel

/-- Render `n / d` (nonnegative) the way Python `str` renders the float:
minimal decimal digits, always at least one fractional digit (`"100.0"`,
`"0.05"`).  A rational without a finite decimal expansion is truncated to 27
digits — such values are never produced by the formulas under verification,
whose inputs are decimal-exact. -/
def ratToCharsPos (n d : Nat) : List Char :=
  let k := (findDecExpAux n d 0 28).getD 27
  let total := n * 10 ^ k / d
  if k = 0 then natToChars total ++ ['.', '0']
  else
    let ds := natToChars total
    let ds := if ds.length ≤ k then List.replicate (k + 1 - ds.length) '0' ++ ds else ds
    ds.take (ds.length - k) ++ ['.'] ++ ds.drop (ds.length - k)

/-- `str(float_value)` of the source's variable substitution. -/
def ratToChars (q : ℚ) : List Char :=
  if q < 0 then '-' :: ratToCharsPos (-q).num.toNat (-q).den
  else ratToCharsPos q.num.toNat q.den

/-- Variable substitution of `_safe_eval` (source lines 95-115): every
recognized variable name, longest first, is replaced whole-word by the
decimal rendering of its value. -/
def substituteVars (ctx : List (String × ℚ)) (s : List Char) : List Char :=
  (sortVarsDesc ctx).foldl (fun acc p => replaceWord p.1.data (ratToChars p.2) acc) s

/-- The denylisted patterns of `_safe_eval` (source lines 118-125). -/
inductive Danger
  | importTok | dunder | execCall | evalCall | openCall | fileCall
deriving DecidableEq

/-- `import\s+` at this position (case-insensitive). -/
def importAt (s : List Char) : Bool :=
  listPrefixOfCI "import".data s &&
    (match s.drop 6 with
     | c :: _ => isSpaceChar c
     | [] => false)

/-- After the mandatory first `\w`, look for the closing `__` of `__\w+__`. -/
def dunderAfterOne : List Char → Bool
  | [] => false
  | c :: cs =>
    (c = '_' && (match cs with | d :: _ => d = '_' | [] => false)) ||
      (isWordChar c && dunderAfterOne cs)

/-- `__\w+__` at this position. -/
def dunderAt (s : List Char) : Bool :=
  listPrefixOf "__".data s &&
    (match s.drop 2 with
     | c :: cs => isWordChar c && dunderAfterOne cs
     | [] => false)

/-- `fn\s*\(` at this position (case-insensitive), for `exec`/`eval`/`open`/`file`. -/
def callAt (fn : List Char) (s : List Char) : Bool :=
  listPrefixOfCI fn s &&
    (match (s.drop fn.length).dropWhile isSpaceChar with
     | c :: _ => c = '('
     | [] => false)

/-- `re.search`: does `p` match at some position of `s`? -/
def searchAny (p : List Char → Bool) : List Char → Bool
  | [] => p []
  | c :: cs => p (c :: cs) || searchAny p cs

/-- The dangerous-pattern check of `_safe_eval`, returning the first pattern
(in source order) found anywhere in the substituted expression. -/
def findDangerous (s : List Char) : Option Danger :=
  if searchAny importAt s then some .importTok
  else if searchAny dunderAt s then some .dunder
  else if searchAny (callAt "exec".data) s then some .execCall
  else if searchAny (callAt "eval".data) s then some .evalCall
  else if searchAny (callAt "open".data) s then some .openCall
  else if searchAny (callAt "file".data) s then some .fileCall
  else none

/-!
### The expression interpreter behind `eval(expression, safe_context, {})`

The source evaluates the substituted string with Python `eval` under a
context containing only `abs`, `min`, `max`, `round`, `pow` and no builtins.
The grammar below is the Python expression grammar restricted to what such
an evaluation can reach: numeric literals, the five context names,
arithmetic, comparisons (chained), boolean operators and the conditional
expression, with the usual precedences and short-circuit behaviour.
Numbers are exact rationals; a fractional right operand of `**` is reported
as a runtime error since its float value is irrational in general (no
catalog formula uses one).
-/

/-- Decidable equality for `Except`, used to evaluate concrete runs. -/
instance exceptDecEq {ε α : Type} [DecidableEq ε] [DecidableEq α] :
    DecidableEq (Except ε α) := fun a b =>
  match a, b with
  | .ok x, .ok y =>
    if h : x = y then isTrue (by rw [h])
    else isFalse (fun hh => by cases hh; exact h rfl)
  | .error x, .error y =>
    if h : x = y then isTrue (by rw [h])
    else isFalse (fun hh => by cases hh; exact h rfl)
  | .ok _, .error _ => isFalse (fun hh => by cases hh)
  | .error _, .ok _ => isFalse (fun hh => by cases hh)

/-- Runtime-level failures of the Python evaluation. -/
inductive RErr
  | synErr | nameErr | zeroDiv | typeErr | nonIntPow | fuelOut
deriving DecidableEq

/-- A Python value reachable by the restricted grammar. -/
inductive Value
  | num (q : ℚ)
  | bool (b : Bool)
deriving DecidableEq

/-- Python truthiness of a numeric/boolean value. -/
def truthy : Value → Bool
  | .num q => if q = 0 then false else true
  | .bool b => b

/-- Numeric coercion (`True == 1`, `False == 0`). -/
def Value.toQ : Value → ℚ
  | .num q => q
  | .bool b => if b then 1 else 0

/-- Tokens of the restricted Python expression grammar. -/
inductive Tok
  | num (q : ℚ)
  | ident (s : String)
  | kwIf | kwElse | kwAnd | kwOr | kwNot
  | plus | minus | star | slash | dslash | percent | dstar
  | ltT | gtT | leT | geT | eqT | neT
  | lparen | rparen | comma
deriving DecidableEq

/-- Digits to a natural number. -/
def digitsToNat (ds : List Char) : Nat :=
  ds.foldl (fun a c => a * 10 + (c.toNat - 48)) 0

/-- Lex one numeric literal in the forms `str(float)` can produce
(`123`, `123.45`, `.5`, `1.`, with optional exponent `e±k`). -/
def lexNumber (s : List Char) : Except RErr (ℚ × List Char) := do
  let ip := s.takeWhile Char.isDigit
  let r1 := s.drop ip.length
  let hasDot := match r1 with | '.' :: _ => true | _ => false
  let r1t := if hasDot then r1.drop 1 else r1
  let fp := if hasDot then r1t.takeWhile Char.isDigit else []
  let r2 := if hasDot then r1t.drop fp.length else r1
  if ip.isEmpty && fp.isEmpty then throw .synErr
  let (expv, r3) ← (do
    match r2 with
    | 'e' :: t | 'E' :: t =>
      let (sgn, t2) : Int × List Char :=
        match t with
        | '+' :: u => (1, u)
        | '-' :: u => (-1, u)
        | _ => (1, t)
      let ed := t2.takeWhile Char.isDigit
      if ed.isEmpty then throw RErr.synErr
      else pure ((sgn * (digitsToNat ed : Int), t2.drop ed.length) : Int × List Char)
    | _ => pure ((0, r2) : Int × List Char))
  let mant := digitsToNat (ip ++ fp)
  let e10 : Int := expv - fp.length
  let q : ℚ :=
    if 0 ≤ e10 then mkRat (mant * 10 ^ e10.toNat) 1 else mkRat mant (10 ^ (-e10).toNat)
  pure (q, r3)

/-- One identifier or keyword. -/
def lexName (s : List Char) : Tok × List Char :=
  let nm := s.takeWhile isWordChar
  let rest := s.drop nm.length
  let tok :=
    if nm = "if".data then Tok.kwIf
    else if nm = "else".data then Tok.kwElse
    else if nm = "and".data then Tok.kwAnd
    else if nm = "or".data then Tok.kwOr
    else if nm = "not".data then Tok.kwNot
    else Tok.ident (String.mk nm)
  (tok, rest)

/-- Tokenize the whole expression (fuelled; fuel ≥ length always suffices). -/
def tokenizeAux : Nat → List Char → Except RErr (List Tok)
  | 0, _ => throw .fuelOut
  | _ + 1, [] => pure []
  | fuel + 1, c :: cs =>
    if isSpaceChar c then tokenizeAux fuel cs
    else if c.isDigit || (c = '.' && (match cs with | d :: _ => d.isDigit | [] => false)) then do
      let (q, rest) ← lexNumber (c :: cs)
      let ts ← tokenizeAux fuel rest
      pure (Tok.num q :: ts)
    else if c.isAlpha || c = '_' then do
      let (tok, rest) := lexName (c :: cs)
      let ts ← tokenizeAux fuel rest
      pure (tok :: ts)
    else do
      let (tok, rest) ← (do
        match c, cs with
        | '*', '*' :: r => pure ((Tok.dstar, r) : Tok × List Char)
        | '/', '/' :: r => pure ((Tok.dslash, r) : Tok × List Char)
        | '<', '=' :: r => pure ((Tok.leT, r) : Tok × List Char)
        | '>', '=' :: r => pure ((Tok.geT, r) : Tok × List Char)
        | '=', '=' :: r => pure ((Tok.eqT, r) : Tok × List Char)
        | '!', '=' :: r => pure ((Tok.neT, r) : Tok × List Char)
        | '+', r => pure ((Tok.plus, r) : Tok × List Char)
        | '-', r => pure ((Tok.minus, r) : Tok × List Char)
        | '*', r => pure ((Tok.star, r) : Tok × List Char)
        | '/', r => pure ((Tok.slash, r) : Tok × List Char)
        | '%', r => pure ((Tok.percent, r) : Tok × List Char)
        | '<', r => pure ((Tok.ltT, r) : Tok × List Char)
        | '>', r => pure ((Tok.gtT, r) : Tok × List Char)
        | '(', r => pure ((Tok.lparen, r) : Tok × List Char)
        | ')', r => pure ((Tok.rparen, r) : Tok × List Char)
        | ',', r => pure ((Tok.comma, r) : Tok × List Char)
        | _, _ => throw RErr.synErr)
      let ts ← tokenizeAux fuel rest
      pure (tok :: ts)

/-- Tokenizer entry point. -/
def tokenize (s : List Char) : Except RErr (List Tok) :=
  tokenizeAux (s.length + 1) s

/-- Result of evaluating a subexpression: a value or a runtime error. -/
abbrev PRes := Except RErr Value

/-- `q ^ n` by repeated reducible multiplication. -/
def qpowNat (q : ℚ) : Nat → ℚ
  | 0 => 1
  | n + 1 => qmul q (qpowNat q n)

/-- Left-to-right strict binary combination. -/
def liftBin (f : Value → Value → PRes) : PRes → PRes → PRes
  | .error e, _ => .error e
  | .ok _, .error e => .error e
  | .ok a, .ok b => f a b

/-- Python `**` (and two-argument `pow`): exact for integral exponents, a
runtime error for fractional ones (their float value is irrational in
general; no formula under test uses one). -/
def powV (a b : Value) : PRes :=
  let base := a.toQ
  let e := b.toQ
  if e.den = 1 then
    if 0 ≤ e.num then .ok (.num (qpowNat base e.num.toNat))
    else if base = 0 then .error .zeroDiv
    else .ok (.num (qdiv 1 (qpowNat base (-e.num).toNat)))
  else .error .nonIntPow

/-- Python `//` and `%` build on the floor of the true quotient. -/
def floorQuot (a b : ℚ) : ℚ := mkRat (qfloor (qdiv a b)) 1

/-- Apply an arithmetic token to two evaluated operands. -/
def arithOp (t : Tok) (a b : Value) : PRes :=
  let x := a.toQ
  let y := b.toQ
  match t with
  | .plus => .ok (.num (qadd x y))
  | .minus => .ok (.num (qsub x y))
  | .star => .ok (.num (qmul x y))
  | .slash => if y = 0 then .error .zeroDiv else .ok (.num (qdiv x y))
  | .dslash => if y = 0 then .error .zeroDiv else .ok (.num (floorQuot x y))
  | .percent =>
    if y = 0 then .error .zeroDiv else .ok (.num (qsub x (qmul y (floorQuot x y))))
  | _ => .error .typeErr

/-- Apply a comparison token (numeric coercion, as in Python). -/
def cmpOp (t : Tok) (a b : Value) : Bool :=
  let x := a.toQ
  let y := b.toQ
  match t with
  | .ltT => decide (x < y)
  | .gtT => decide (y < x)
  | .leT => decide (x ≤ y)
  | .geT => decide (y ≤ x)
  | .eqT => decide (x = y)
  | .neT => decide (x ≠ y)
  | _ => false

/-- Is this token a comparison operator? -/
def isCmpTok : Tok → Bool
  | .ltT | .gtT | .leT | .geT | .eqT | .neT => true
  | _ => false

/-- State of a (short-circuiting) Python comparison chain. -/
inductive CmpSt
  | err (e : RErr)
  | doneFalse
  | alive (v : Value)

/-- Start a chain from the first operand. -/
def CmpSt.start : PRes → CmpSt
  | .error e => .err e
  | .ok v => .alive v

/-- One chain step: once false, later operands are not evaluated. -/
def CmpSt.step (t : Tok) (b : PRes) : CmpSt → CmpSt
  | .err e => .err e
  | .doneFalse => .doneFalse
  | .alive v =>
    match b with
    | .error e => .err e
    | .ok w => if cmpOp t v w then .alive w else .doneFalse

/-- Collapse a finished chain to its Boolean result. -/
def CmpSt.finish : CmpSt → PRes
  | .err e => .error e
  | .doneFalse => .ok (.bool false)
  | .alive _ => .ok (.bool true)

/-- Python `and` (returns an operand, short-circuits). -/
def andLazy (a b : PRes) : PRes :=
  match a with
  | .error e => .error e
  | .ok v => if truthy v then b else .ok v

/-- Python `or` (returns an operand, short-circuits). -/
def orLazy (a b : PRes) : PRes :=
  match a with
  | .error e => .error e
  | .ok v => if truthy v then .ok v else b

/-- Conditional expression `t if c else e`: only the selected branch's
runtime outcome matters. -/
def ternLazy (c t e : PRes) : PRes :=
  match c with
  | .error er => .error er
  | .ok cv => if truthy cv then t else e

/-- Minimum/maximum folds for the whitelisted `min`/`max`. -/
def foldMin (v : Value) (vs : List Value) : Value :=
  vs.foldl (fun a b => if b.toQ < a.toQ then b else a) v

def foldMax (v : Value) (vs : List Value) : Value :=
  vs.foldl (fun a b => if a.toQ < b.toQ then b else a) v

/-- Round-half-to-even on rationals (CPython `round`). -/
def roundHalfEven (q : ℚ) : Int :=
  let f := qfloor q
  let frac := qsub q (mkRat f 1)
  if frac < mkRat 1 2 then f
  else if mkRat 1 2 < frac then f + 1
  else if f % 2 = 0 then f else f + 1

/-- `round(x, n)` for integral `n` (may be negative). -/
def roundToDigits (q : ℚ) (n : Int) : ℚ :=
  if 0 ≤ n then
    qdiv (mkRat (roundHalfEven (qmul q (mkRat (10 ^ n.toNat) 1))) 1) (mkRat (10 ^ n.toNat) 1)
  else
    qmul (mkRat (roundHalfEven (qdiv q (mkRat (10 ^ (-n).toNat) 1))) 1) (mkRat (10 ^ (-n).toNat) 1)

/-- The function whitelist of `safe_context` (source lines 100-107).
Evaluating a *call* of one of these; any other called name is a
`NameError`, as the evaluation globals contain nothing else. -/
def applyFn (name : String) (args : List Value) : PRes :=
  if name = "abs" then
    match args with
    | [a] => .ok (.num (qabs a.toQ))
    | _ => .error .typeErr
  else if name = "min" then
    match args with
    | [] | [_] => .error .typeErr
    | a :: rest => .ok (foldMin a rest)
  else if name = "max" then
    match args with
    | [] | [_] => .error .typeErr
    | a :: rest => .ok (foldMax a rest)
  else if name = "round" then
    match args with
    | [a] => .ok (.num (mkRat (roundHalfEven a.toQ) 1))
    | [a, n] =>
      if n.toQ.den = 1 then .ok (.num (roundToDigits a.toQ n.toQ.num)) else .error .typeErr
    | _ => .error .typeErr
  else if name = "pow" then
    match args with
    | [a, b] => powV a b
    | _ => .error .typeErr
  else .error .nameErr

/-- Is this name one of the five whitelisted callables?  A *bare* whitelist
name evaluates to the function object in Python; the pricing caller then
fails coercing it with `float(...)`, so the model reports it as a runtime
`typeErr` directly (the caller-visible outcome is identical). -/
def isWhitelistFn (name : String) : Bool :=
  name = "abs" || name = "min" || name = "max" || name = "round" || name = "pow"

/-- First runtime error among the arguments, else their values. -/
def collectArgs : List PRes → Except RErr (List Value)
  | [] => .ok []
  | .error e :: _ => .error e
  | .ok v :: rest => (collectArgs rest).map (v :: ·)

/-- Evaluate a call once all arguments have parsed: Python resolves the
callable first (so an unknown name is a `NameError` before arguments run),
then evaluates arguments left to right. -/
def evalCall (name : String) (args : List PRes) : PRes :=
  match collectArgs args with
  | .error e => .error e
  | .ok vs => applyFn name vs

mutual

/-- `conditional ::= or_test [if or_test else conditional]` (lowest level). -/
def parseTernary : Nat → List Tok → Except RErr (PRes × List Tok)
  | 0, _ => throw .fuelOut
  | fuel + 1, ts => do
    let (a, r) ← parseOr fuel ts
    match r with
    | .kwIf :: r2 =>
      let (c, r3) ← parseOr fuel r2
      match r3 with
      | .kwElse :: r4 =>
        let (e, r5) ← parseTernary fuel r4
        pure (ternLazy c a e, r5)
      | _ => throw .synErr
    | _ => pure (a, r)

def parseOr : Nat → List Tok → Except RErr (PRes × List Tok)
  | 0, _ => throw .fuelOut
  | fuel + 1, ts => do
    let (a, r) ← parseAnd fuel ts
    parseOrRest fuel a r

def parseOrRest : Nat → PRes → List Tok → Except RErr (PRes × List Tok)
  | 0, _, _ => throw .fuelOut
  | fuel + 1, acc, ts =>
    match ts with
    | .kwOr :: r => do
      let (b, r2) ← parseAnd fuel r
      parseOrRest fuel (orLazy acc b) r2
    | _ => pure (acc, ts)

def parseAnd : Nat → List Tok → Except RErr (PRes × List Tok)
  | 0, _ => throw .fuelOut
  | fuel + 1, ts => do
    let (a, r) ← parseNotL fuel ts
    parseAndRest fuel a r

def parseAndRest : Nat → PRes → List Tok → Except RErr (PRes × List Tok)
  | 0, _, _ => throw .fuelOut
  | fuel + 1, acc, ts =>
    match ts with
    | .kwAnd :: r => do
      let (b, r2) ← parseNotL fuel r
      parseAndRest fuel (andLazy acc b) r2
    | _ => pure (acc, ts)

def parseNotL : Nat → List Tok → Except RErr (PRes × List Tok)
  | 0, _ => throw .fuelOut
  | fuel + 1, ts =>
    match ts with
    | .kwNot :: r => do
      let (a, r2) ← parseNotL fuel r
      pure (a.map (fun v => Value.bool (!truthy v)), r2)
    | _ => parseCmp fuel ts

def parseCmp : Nat → List Tok → Except RErr (PRes × List Tok)
  | 0, _ => throw .fuelOut
  | fuel + 1, ts => do
    let (a, r) ← parseArith fuel ts
    match r with
    | t :: _ =>
      if isCmpTok t then parseCmpChain fuel (CmpSt.start a) r
      else pure (a, r)
    | [] => pure (a, r)

def parseCmpChain : Nat → CmpSt → List Tok → Except RErr (PRes × List Tok)
  | 0, _, _ => throw .fuelOut
  | fuel + 1, st, ts =>
    match ts with
    | t :: r =>
      if isCmpTok t then do
        let (b, r2) ← parseArith fuel r
        parseCmpChain fuel (st.step t b) r2
      else pure (st.finish, ts)
    | [] => pure (st.finish, ts)

def parseArith : Nat → List Tok → Except RErr (PRes × List Tok)
  | 0, _ => throw .fuelOut
  | fuel + 1, ts => do
    let (a, r) ← parseTerm fuel ts
    parseArithRest fuel a r

def parseArithRest : Nat → PRes → List Tok → Except RErr (PRes × List Tok)
  | 0, _, _ => throw .fuelOut
  | fuel + 1, acc, ts =>
    match ts with
    | .plus :: r => do
      let (b, r2) ← parseTerm fuel r
      parseArithRest fuel (liftBin (arithOp .plus) acc b) r2
    | .minus :: r => do
      let (b, r2) ← parseTerm fuel r
      parseArithRest fuel (liftBin (arithOp .minus) acc b) r2
    | _ => pure (acc, ts)

def parseTerm : Nat → List Tok → Except RErr (PRes × List Tok)
  | 0, _ => throw .fuelOut
  | fuel + 1, ts => do
    let (a, r) ← parseFactor fuel ts
    parseTermRest fuel a r

def parseTermRest : Nat → PRes → List Tok → Except RErr (PRes × List Tok)
  | 0, _, _ => throw .fuelOut
  | fuel + 1, acc, ts =>
    match ts with
    | .star :: r => do
      let (b, r2) ← parseFactor fuel r
      parseTermRest fuel (liftBin (arithOp .star) acc b) r2
    | .slash :: r => do
      let (b, r2) ← parseFactor fuel r
      parseTermRest fuel (liftBin (arithOp .slash) acc b) r2
    | .dslash :: r => do
      let (b, r2) ← parseFactor fuel r
      parseTermRest fuel (liftBin (arithOp .dslash) acc b) r2
    | .percent :: r => do
      let (b, r2) ← parseFactor fuel r
      parseTermRest fuel (liftBin (arithOp .percent) acc b) r2
    | _ => pure (acc, ts)

/-- `u_expr ::= power | "-" u_expr | "+" u_expr`. -/
def parseFactor : Nat → List Tok → Except RErr (PRes × List Tok)
  | 0, _ => throw .fuelOut
  | fuel + 1, ts =>
    match ts with
    | .minus :: r => do
      let (a, r2) ← parseFactor fuel r
      pure (a.map (fun v => Value.num (qneg v.toQ)), r2)
    | .plus :: r => do
      let (a, r2) ← parseFactor fuel r
      pure (a.map (fun v => Value.num v.toQ), r2)
    | _ => parsePower fuel ts

/-- `power ::= atom ["**" u_expr]` (right-associative, binds above unary). -/
def parsePower : Nat → List Tok → Except RErr (PRes × List Tok)
  | 0, _ => throw .fuelOut
  | fuel + 1, ts => do
    let (a, r) ← parseAtom fuel ts
    match r with
    | .dstar :: r2 => do
      let (b, r3) ← parseFactor fuel r2
      pure (liftBin powV a b, r3)
    | _ => pure (a, r)

def parseAtom : Nat → List Tok → Except RErr (PRes × List Tok)
  | 0, _ => throw .fuelOut
  | fuel + 1, ts =>
    match ts with
    | .num q :: r => pure (.ok (.num q), r)
    | .lparen :: r => do
      let (a, r2) ← parseTernary fuel r
      match r2 with
      | .rparen :: r3 => pure (a, r3)
      | _ => throw .synErr
    | .ident nm :: .lparen :: r => do
      let (args, r2) ← parseArgs fuel r
      if isWhitelistFn nm then
        pure (evalCall nm args, r2)
      else
        pure (.error .nameErr, r2)
    | .ident nm :: r =>
      -- a bare name: nothing except the five callables exists in the globals
      if isWhitelistFn nm then pure (.error .typeErr, r) else pure (.error .nameErr, r)
    | _ => throw .synErr

/-- Argument list after `(`, consuming the closing `)`. -/
def parseArgs : Nat → List Tok → Except RErr (List PRes × List Tok)
  | 0, _ => throw .fuelOut
  | fuel + 1, ts =>
    match ts with
    | .rparen :: r => pure ([], r)
    | _ => do
      let (a, r) ← parseTernary fuel ts
      match r with
      | .comma :: r2 => do
        let (as_, r3) ← parseArgs fuel r2
        pure (a :: as_, r3)
      | .rparen :: r2 => pure ([a], r2)
      | _ => throw .synErr

end

/-- Run the tokenizer and parser on a substituted expression string; a
non-empty remainder is a syntax error, as in `eval`. -/
def evalPyChars (s : List Char) : Except RErr Value :=
  match tokenize s with
  | .error e => .error e
  | .ok ts =>
    match parseTernary (16 * (ts.length + 1)) ts with
    | .error e => .error e
    | .ok (v, rest) => if rest.isEmpty then v else .error .synErr

/-!
### `_safe_eval`, `_eval_conditional` and `execute_formula`
-/

/-- Case-sensitive substring containment (Python `sep in s`). -/
def containsSub (pat s : List Char) : Bool :=
  searchAny (listPrefixOf pat) s

/-- Substring containment after lowercasing (`pat in s.lower()`), `pat`
given lowercase. -/
def containsSubCI (pat s : List Char) : Bool :=
  searchAny (listPrefixOf pat) (s.map Char.toLower)

/-- `s.split(sep, 1)`: split at the first occurrence of `sep`. -/
def splitOnce (sep : List Char) : List Char → Option (List Char × List Char)
  | [] => if sep.isEmpty then some ([], []) else none
  | c :: cs =>
    if listPrefixOf sep (c :: cs) then some ([], (c :: cs).drop sep.length)
    else (splitOnce sep cs).map (fun p => (c :: p.1, p.2))

/-- Length of the leading whitespace run. -/
def wsRun (s : List Char) : Nat := (s.takeWhile isSpaceChar).length

/-- Match `\s+ kw \s+` (kw case-insensitive) at the start, returning the
remainder after the trailing whitespace. -/
def sepHere (kw : List Char) (s : List Char) : Option (List Char) :=
  let n := wsRun s
  if n = 0 then none
  else
    let r := s.drop n
    if listPrefixOfCI kw r then
      let r2 := r.drop kw.length
      let m := wsRun r2
      if m = 0 then none else some (r2.drop m)
    else none

/-- Scan for the lazy `(.+?)\s+else\s+(.+)` tail of the then-form regex:
shortest nonempty group first, backtracking on a failing remainder. -/
def findElseSplit (acc : List Char) : List Char → Option (List Char × List Char)
  | [] => none
  | c :: cs =>
    match (if acc.isEmpty then none else sepHere "else".data (c :: cs)) with
    | some r => if r.isEmpty then findElseSplit (acc ++ [c]) cs else some (acc, r)
    | none => findElseSplit (acc ++ [c]) cs

/-- Scan for `(.+?)\s+then\s+` followed by a successful `else` tail,
backtracking across `then` candidates as the regex engine does. -/
def findThenElse (acc : List Char) : List Char → Option (List Char × List Char × List Char)
  | [] => none
  | c :: cs =>
    match (if acc.isEmpty then none else sepHere "then".data (c :: cs)) with
    | some r =>
      match findElseSplit [] r with
      | some (g2, g3) => some (acc, g2, g3)
      | none => findThenElse (acc ++ [c]) cs
    | none => findThenElse (acc ++ [c]) cs

/-- `re.match(r'if\s+(.+?)\s+then\s+(.+?)\s+else\s+(.+)', s, re.IGNORECASE)`.
The leading `\s+` is consumed greedily; regex backtracking into it matters
only when everything between `if` and `then` is whitespace, where the match
fails either way. -/
def matchThenForm (s : List Char) : Option (List Char × List Char × List Char) :=
  if listPrefixOfCI "if".data s then
    let r := s.drop 2
    if wsRun r = 0 then none else findThenElse [] (r.drop (wsRun r))
  else none

/-- Failures `_safe_eval` can raise. -/
inductive EvalErr
  | security (d : Danger)   -- the denylist ValueError, raised before evaluating
  | pyErr (e : RErr)        -- an exception propagating out of the evaluation
  | condParse               -- ValueError of an unparseable conditional
deriving DecidableEq

mutual

/-- `PricingFormulaService._safe_eval` (source lines 80-139): strip,
substitute the context longest-name-first, reject denylisted patterns
*before* any evaluation, evaluate; on an evaluation exception fall back to
the manual conditional handler when the text contains `if`. -/
def safe_eval : Nat → List Char → List (String × ℚ) → Except EvalErr Value
  | 0, _, _ => throw (.pyErr .fuelOut)
  | fuel + 1, expression, context =>
    let sub := substituteVars context (pyStrip expression)
    match findDangerous sub with
    | some d => throw (.security d)
    | none =>
      match evalPyChars sub with
      | .ok v => pure v
      | .error e =>
        if containsSubCI "if".data sub then eval_conditional fuel sub context
        else throw (.pyErr e)

/-- `PricingFormulaService._eval_conditional` (source lines 141-182): first
the Python-ternary split on the *first* `" if "` / `" else "`, then the
natural-language `if … then … else …` regex, else the ValueError. -/
def eval_conditional : Nat → List Char → List (String × ℚ) → Except EvalErr Value
  | 0, _, _ => throw (.pyErr .fuelOut)
  | fuel + 1, expression0, context =>
    let expression := pyStrip expression0
    if containsSub " if ".data expression && containsSub " else ".data expression then
      match splitOnce " if ".data expression with
      | some (tv, caf) =>
        match splitOnce " else ".data caf with
        | some (cond, fv) => do
          let c ← safe_eval fuel (pyStrip cond) context
          if truthy c then safe_eval fuel (pyStrip tv) context
          else safe_eval fuel (pyStrip fv) context
        | none => thenFormPath fuel expression context
      | none => thenFormPath fuel expression context
    else thenFormPath fuel expression context

/-- The then-form branch at the bottom of `_eval_conditional`. -/
def thenFormPath : Nat → List Char → List (String × ℚ) → Except EvalErr Value
  | 0, _, _ => throw (.pyErr .fuelOut)
  | fuel + 1, expression, context =>
    if containsSubCI "then".data expression && containsSubCI "else".data expression then
      match matchThenForm expression with
      | some (c, t, f) => do
        let cv ← safe_eval fuel (pyStrip c) context
        if truthy cv then safe_eval fuel (pyStrip t) context
        else safe_eval fuel (pyStrip f) context
      | none => throw .condParse
    else throw .condParse

end

/-- `PricingFormulaService.execute_formula` (source lines 14-56): empty
formula and any evaluation failure fall back to `area * rate`; a successful
result is coerced with `float(...)`. -/
def execute_formula (fuel : Nat) (formula : String) (area base_price rate : ℚ)
    (kwargs : List (String × ℚ)) : ℚ :=
  if formula = "" then qmul area rate
  else
    let formula_context :=
      ("area", area) :: ("base_price", base_price) :: ("rate", rate) :: kwargs
    match safe_eval fuel formula.data formula_context with
    | .ok v => v.toQ
    | .error _ => qmul area rate

/-!
### `PricingService` (`app/services/pricing_service.py`)
-/

/-- `settings.BASE_PRICE_PER_SQ_IN` (`app/config.py` line 78). -/
def BASE_PRICE_PER_SQ_IN : ℚ := mkRat 1 20

/-- `settings.MIN_ORDER_AMOUNT` (`app/config.py` line 79). -/
def MIN_ORDER_AMOUNT : ℚ := 50

/-- A `products` row (`app/models.py`), with the column defaults used when
the pipeline auto-creates a product. -/
structure ProductRow where
  id : Nat
  business_id : Nat
  name : String
  price_per_sq_in : ℚ := mkRat 1 20
  pricing_formula : Option String := none
  min_size_sq_in : ℚ := 100
  max_size_sq_in : ℚ := 10000
  active : Bool := true
deriving DecidableEq

/-- `db.query(Product).filter(Product.id == product_id).first()`. -/
def findProduct (products : List ProductRow) (pid : Nat) : Option ProductRow :=
  products.find? (fun p => p.id == pid)

/-- Python truthiness of the `pricing_formula` column (`None` and the empty
string are both falsy). -/
def truthyFormula : Option String → Option String
  | some f => if f = "" then none else some f
  | none => none

/-- `round(x, n)` of the source's result shaping. -/
def pyRound (q : ℚ) (n : Nat) : ℚ := roundToDigits q n

/-- The result dict of `calculate_price`. -/
structure PriceOut where
  area_sq_inches : ℚ
  unit_price : ℚ
  total_price : ℚ
  min_price : ℚ
deriving DecidableEq

/-- Lines 38-62 of `calculate_price`: the total and unit price *before* the
minimum-order clamp and rounding are applied. -/
def rawTotalUnit (fuel : Nat) (products : List ProductRow) (product_id : Nat)
    (length_inches width_inches : ℚ) : ℚ × ℚ :=
  let product := findProduct products product_id
  let area_sq_inches := qmul length_inches width_inches
  match product with
  | some p =>
    match truthyFormula p.pricing_formula with
    | some f =>
      let base_price := if 0 < p.price_per_sq_in then p.price_per_sq_in else 0
      let rate := if 0 < p.price_per_sq_in then p.price_per_sq_in else BASE_PRICE_PER_SQ_IN
      let total_price := execute_formula fuel f area_sq_inches base_price rate
        [("length", length_inches), ("width", width_inches)]
      let unit_price := if 0 < area_sq_inches then qdiv total_price area_sq_inches else 0
      (total_price, unit_price)
    | none =>
      let unit_price :=
        if p.price_per_sq_in = 0 then BASE_PRICE_PER_SQ_IN else p.price_per_sq_in
      (qmul area_sq_inches unit_price, unit_price)
  | none =>
    (qmul area_sq_inches BASE_PRICE_PER_SQ_IN, BASE_PRICE_PER_SQ_IN)

/-- `PricingService.calculate_price` (source lines 14-74): formula or legacy
total, minimum-order clamp on the total only, rounded result fields.  The
unit price is computed *before* the clamp and is not recomputed after it. -/
def calculate_price (fuel : Nat) (products : List ProductRow) (product_id : Nat)
    (length_inches width_inches : ℚ) : PriceOut :=
  let area_sq_inches := qmul length_inches width_inches
  let tu := rawTotalUnit fuel products product_id length_inches width_inches
  let total_price := if tu.1 < MIN_ORDER_AMOUNT then MIN_ORDER_AMOUNT else tu.1
  { area_sq_inches := pyRound area_sq_inches 2
    unit_price := pyRound tu.2 4
    total_price := pyRound total_price 2
    min_price := MIN_ORDER_AMOUNT }

/-- `PricingService.validate_dimensions` (source lines 76-102).  The source
interpolates the limits into the message; the model keeps fixed texts. -/
def validate_dimensions (products : List ProductRow) (product_id : Nat)
    (length_inches width_inches : ℚ) : Bool × Option String :=
  match findProduct products product_id with
  | none => (true, none)
  | some p =>
    let area := qmul length_inches width_inches
    if area < p.min_size_sq_in then (false, some "Minimum size is not met")
    else if p.max_size_sq_in < area then (false, some "Maximum size is exceeded")
    else (true, none)

/-!
### Data model of the orchestration pipeline (`app/models.py`)

Options model nullable columns; the ingestion code stores `None` rather
than an empty string in the optional text columns (`x or None`), so Python
truthiness of those fields coincides with `Option.isSome`.  Timestamps are
integer seconds.
-/

/-- A `businesses` row (the fields the pipeline reads). -/
structure BusinessRow where
  id : Nat
  name : String := ""
  email : String
  active : Bool := true
  oauth_refresh_token_encrypted : Option String := none
  oauth_email : Option String := none
deriving DecidableEq

/-- A `customers` row. -/
structure CustomerRow where
  id : Nat
  business_id : Nat
  email : String
  name : Option String := none
  is_new_customer : Bool := true
  last_quote_date : Option Nat := none
deriving DecidableEq

/-- An `email_inbox` row (the InboundMessage record). -/
structure EmailRow where
  id : Nat
  business_id : Option Nat
  message_id : String
  from_email : String
  from_name : Option String := none
  to_email : String := ""
  subject : String := ""
  body : String := ""
  received_at : Nat := 0
  processed : Bool := false
  processed_at : Option Nat := none
  in_reply_to : Option String := none
  references : Option String := none
  thread_id : Option String := none
  is_reply_to_us : Bool := false
deriving DecidableEq

/-- A `quotes` row. -/
structure QuoteRow where
  id : Nat
  business_id : Nat
  quote_number : String
  customer_id : Nat
  product_id : Nat
  length_inches : ℚ
  width_inches : ℚ
  area_sq_inches : ℚ
  unit_price : ℚ
  total_price : ℚ
  notes : Option String := none
  status : String := "pending"
  pdf_path : Option String := none
deriving DecidableEq

/-- An `email_responses` row (the OutboundMessage record). -/
structure ResponseRow where
  quote_id : Option Nat := none
  to_email : String
  subject : String := ""
  body : String := ""
  status : String := "sent"
  message_id : Option String := none
  in_reply_to : Option String := none
  thread_id : Option String := none
  related_email_id : Option Nat := none
deriving DecidableEq

/-- The database state touched by the pipeline. -/
structure DB where
  businesses : List BusinessRow := []
  products : List ProductRow := []
  customers : List CustomerRow := []
  inbox : List EmailRow := []
  quotes : List QuoteRow := []
  responses : List ResponseRow := []
deriving DecidableEq

/-- An SMTP transmission that actually left the system (an external side
effect: it survives any later database rollback). -/
structure SentMsg where
  to_email : String
  subject : String := ""
  body : String := ""
  in_reply_to : Option String := none
  has_attachment : Bool := false
deriving DecidableEq

/-- Outcome of `ai_service.detect_email_intent` (an external oracle). -/
structure IntentResult where
  intent : String
  confidence : ℚ
deriving DecidableEq

/-- Outcome of `ai_service.extract_quote_info` (an external oracle);
`length_inches`/`width_inches` are meaningful when `has_complete_info`. -/
structure ExtractResult where
  product_name : Option String := none
  length_inches : ℚ := 0
  width_inches : ℚ := 0
  missing_fields : List String := []
  has_complete_info : Bool := false
deriving DecidableEq

/-- The external world for one processing run: oracle outputs and the
success/failure of each collaborator. -/
structure Env where
  now : Nat := 0
  intent : IntentResult := { intent := "new_request", confidence := mkRat 9 10 }
  extraction : ExtractResult := {}
  response_body : String := "response"
  quote_number : String := "Q-1"
  pdf_ok : Bool := true
  pdf_path : String := "quote.pdf"
  token_ok : Bool := true
  smtp_ok : Bool := true
  message_id : String := "out-mid"
deriving DecidableEq

/-- A fresh primary key: one more than the largest id on file. -/
def nextId (ids : List Nat) : Nat := ids.foldr (fun a b => Nat.max a b) 0 + 1

def nextEmailId (db : DB) : Nat := nextId (db.inbox.map (fun r => r.id))

def nextCustomerId (db : DB) : Nat := nextId (db.customers.map (fun r => r.id))

def nextProductId (db : DB) : Nat := nextId (db.products.map (fun r => r.id))

def nextQuoteId (db : DB) : Nat := nextId (db.quotes.map (fun r => r.id))

def lowerChars (s : List Char) : List Char := s.map Char.toLower

/-- `to_email.strip().lower()` plus angle-bracket stripping
(`identify_business_from_email`, source lines 32-35). -/
def normalizeEmail (s : String) : String :=
  let t := lowerChars (pyStrip s.data)
  match t with
  | '<' :: rest =>
    if rest.getLast? = some '>' then String.mk rest.dropLast else String.mk ('<' :: rest)
  | _ => String.mk t

/-- `QuoteService.identify_business_from_email` (source lines 22-67).  After
the exact-email check the source dereferences `models.Business.imap_email`;
the `Business` model declares no such column, so that statement raises
`AttributeError` — the alias and fallback steps are unreachable. -/
def identify_business (db : DB) (to_email : String) : Except String BusinessRow :=
  if to_email = "" then
    match db.businesses.find? (fun b => b.active) with
    | some b => .ok b
    | none => .error "No active business found and no To: address provided"
  else
    let norm := normalizeEmail to_email
    match db.businesses.find? (fun b => String.mk (lowerChars b.email.data) = norm) with
    | some b => .ok b
    | none => .error "AttributeError: Business has no attribute imap_email"

/-- Update the inbox row with the given id. -/
def markEmail (db : DB) (email_id : Nat) (f : EmailRow → EmailRow) : DB :=
  { db with inbox := db.inbox.map (fun r => if r.id = email_id then f r else r) }

/-- Python `a or b` on nullable text columns. -/
def pyOrOpt (a b : Option String) : Option String :=
  match a with
  | some x => some x
  | none => b

/-- Python `a or dflt` on a nullable/possibly-empty string. -/
def pyOrStr (a : Option String) (dflt : String) : String :=
  match a with
  | some x => if x = "" then dflt else x
  | none => dflt

/-- The duplicate-reply lookup (source lines 171-174).  SQLAlchemy renders
`column == None` as `IS NULL`, which `Option` equality mirrors. -/
def hasExistingReply (responses : List ResponseRow) (tid : String)
    (irt : Option String) : Bool :=
  responses.any (fun r => r.thread_id == some tid || r.in_reply_to == irt)

def findBusiness (businesses : List BusinessRow) (bid : Nat) : Option BusinessRow :=
  businesses.find? (fun b => b.id == bid)

def findCustomer (customers : List CustomerRow) (em : String) (bid : Nat) :
    Option CustomerRow :=
  customers.find? (fun c => c.email == em && c.business_id == bid)

def findCustomerById (customers : List CustomerRow) (cid : Nat) : Option CustomerRow :=
  customers.find? (fun c => c.id == cid)

/-- `column.ilike(f"%{pat}%")`: case-insensitive containment. -/
def ilikeContains (colVal pat : String) : Bool :=
  containsSub (lowerChars pat.data) (lowerChars colVal.data)

/-- `Option` to a singleton or empty list. -/
def optList {α : Type} : Option α → List α
  | some a => [a]
  | none => []

/-!
### `EmailService` (`app/services/email_service.py`)
-/

/-- `EmailService.send_email` (source lines 25-87): the plain-text send used
for information requests and duplicate acknowledgments.  It returns `False`
on a missing token or an SMTP failure and `True` on success; it never
touches the database (the source receives `db` and never adds a row). -/
def send_email (db : DB) (env : Env) (to_email subject body : String)
    (in_reply_to : Option String) : DB × Bool × Option SentMsg :=
  if !env.token_ok then (db, false, none)
  else if env.smtp_ok then
    (db, true, some { to_email, subject, body, in_reply_to })
  else (db, false, none)

/-- `EmailService.send_quote_email` (source lines 96-201): on success it
records a `sent` EmailResponse row carrying the generated message id and
thread fields; on an SMTP exception it records a `failed` row carrying only
the addressing fields; on a missing access token it returns `False` without
recording anything. -/
def send_quote_email (db : DB) (env : Env) (to_email subject body : String)
    (pdf_path : Option String) (quote_id : Nat) (in_reply_to : Option String)
    (related_email_id : Option Nat) : DB × Bool × Option SentMsg :=
  if !env.token_ok then (db, false, none)
  else if env.smtp_ok then
    let row : ResponseRow :=
      { quote_id := some quote_id, to_email, subject, body, status := "sent",
        message_id := some env.message_id, in_reply_to := in_reply_to,
        thread_id := in_reply_to, related_email_id := related_email_id }
    ({ db with responses := db.responses ++ [row] }, true,
      some { to_email, subject, body, in_reply_to, has_attachment := pdf_path.isSome })
  else
    let row : ResponseRow :=
      { quote_id := some quote_id, to_email, subject, body, status := "failed" }
    ({ db with responses := db.responses ++ [row] }, false, none)

/-!
### `QuoteService` (`app/services/quote_service.py`)
-/

/-- `QuoteService.create_quote` (source lines 77-145): price, persist the
quote, render the PDF.  An exception (missing product, missing customer for
the PDF's `customer.name`, PDF failure) propagates and the enclosing
transaction rolls the insert back, which the `Except` error models. -/
def create_quote (fuel : Nat) (db : DB) (env : Env) (business_id : Option Nat)
    (customer_id product_id : Nat) (length_inches width_inches : ℚ)
    (notes : Option String) : Except String (DB × QuoteRow) :=
  match findProduct db.products product_id with
  | none => .error "Product not found"
  | some product =>
    -- Python `if not business_id:` treats both None and 0 as absent
    let bid :=
      match business_id with
      | none => product.business_id
      | some 0 => product.business_id
      | some b => b
    let pricing := calculate_price fuel db.products product_id length_inches width_inches
    match findCustomerById db.customers customer_id with
    | none => .error "AttributeError: customer is None"
    | some _ =>
      if !env.pdf_ok then .error "PDF generation failed"
      else
        let q : QuoteRow :=
          { id := nextQuoteId db, business_id := bid, quote_number := env.quote_number,
            customer_id, product_id, length_inches, width_inches,
            area_sq_inches := pricing.area_sq_inches,
            unit_price := pricing.unit_price, total_price := pricing.total_price,
            notes, pdf_path := some env.pdf_path }
        .ok ({ db with quotes := db.quotes ++ [q] }, q)

/-- The quote-creation HTTP endpoint (`app/routers/quotes.py` lines 14-36):
validate dimensions first, reject with HTTP 400 before `create_quote`. -/
def api_create_quote (fuel : Nat) (db : DB) (env : Env) (business_id : Option Nat)
    (customer_id product_id : Nat) (length_inches width_inches : ℚ)
    (notes : Option String) : Except String (DB × QuoteRow) :=
  let v := validate_dimensions db.products product_id length_inches width_inches
  if v.1 then
    create_quote fuel db env business_id customer_id product_id
      length_inches width_inches notes
  else .error (v.2.getD "Invalid dimensions")

/-- The acknowledgment body of the duplicate branch (fixed text in the
source; its exact wording is irrelevant to the properties). -/
def ackBody : String := "We have already sent you a quote for this request"

/-- Find-or-create of the customer keyed by (business, sender address)
(source lines 234-250): an existing row has `is_new_customer` cleared, a
missing one is inserted with the sender's name. -/
def resolve_customer (db0 : DB) (email : EmailRow) (bid : Nat) : DB × CustomerRow :=
  match findCustomer db0.customers email.from_email bid with
  | some c =>
    let c2 := { c with is_new_customer := false }
    ({ db0 with
        customers := db0.customers.map (fun x => if x.id = c.id then c2 else x) }, c2)
  | none =>
    let c : CustomerRow :=
      { id := nextCustomerId db0, business_id := bid, email := email.from_email,
        name := email.from_name }
    ({ db0 with customers := db0.customers ++ [c] }, c)

/-- Find-or-create of the product (source lines 254-275): fuzzy name match
within the business, then the business's "Custom Product", then a fresh
default-rate product.  `f"%{extracted_info['product_name']}%"` interpolates
`None` as the text `"None"`. -/
def resolve_product (db1 : DB) (bid : Nat) (extracted : ExtractResult) :
    DB × ProductRow :=
  let pname := extracted.product_name.getD "None"
  match db1.products.find?
      (fun p => ilikeContains p.name pname && p.business_id == bid && p.active) with
  | some p => (db1, p)
  | none =>
    match db1.products.find?
        (fun p => p.name == "Custom Product" && p.business_id == bid) with
    | some p => (db1, p)
    | none =>
      let p : ProductRow :=
        { id := nextProductId db1, business_id := bid,
          name := pyOrStr extracted.product_name "Custom Product",
          price_per_sq_in := mkRat 1 20 }
      ({ db1 with products := db1.products ++ [p] }, p)

/-- Steps 3-9 of `process_email_and_generate_quote` (source lines 222-348):
classify (logged only), extract, resolve/create customer, then either the
quote branch or the information-request branch. -/
def main_flow (fuel : Nat) (db0 : DB) (env : Env) (email : EmailRow) (bid : Nat) :
    Except String (DB × List SentMsg) :=
  let extracted := env.extraction
  let (db1, customer) : DB × CustomerRow := resolve_customer db0 email bid
  if extracted.has_complete_info then
    let (db2, product) : DB × ProductRow := resolve_product db1 bid extracted
    match create_quote fuel db2 env (some bid) customer.id product.id
        extracted.length_inches extracted.width_inches none with
    | .error e => .error e
    | .ok (db3, quote) =>
      let (db4, sent) : DB × List SentMsg :=
        match findBusiness db3.businesses bid with
        | none => (db3, [])
        | some _business =>
          let r := send_quote_email db3 env customer.email
            ("Re: " ++ email.subject ++ " - Your Quote") env.response_body
            quote.pdf_path quote.id (some email.message_id) (some email.id)
          (r.1, optList r.2.2)
      let db5 := markEmail db4 email.id
        (fun r => { r with processed := true, processed_at := some env.now })
      let db6 := { db5 with
        customers := db5.customers.map
          (fun c => if c.id = customer.id then { c with last_quote_date := some env.now }
                    else c) }
      .ok (db6, sent)
  else
    let (db2, sent) : DB × List SentMsg :=
      match findBusiness db1.businesses bid with
      | none => (db1, [])
      | some _business =>
        let r := send_email db1 env customer.email
          ("Re: " ++ email.subject ++ " - More Information Needed") env.response_body
          (some email.message_id)
        (r.1, optList r.2.2)
    let db3 := markEmail db2 email.id
      (fun r => { r with processed := true, processed_at := some env.now })
    .ok (db3, sent)

/-- Step 2 of the orchestration (source lines 165-221) followed by the main
flow: with the business resolved, check the thread for an existing reply,
acknowledge classified duplicates without quoting, otherwise continue. -/
def thread_suppression_then_main (fuel : Nat) (db1 : DB) (env : Env)
    (email : EmailRow) (bid : Nat) : Except String (DB × List SentMsg) :=
  match pyOrOpt email.thread_id email.in_reply_to with
  | some tid =>
    if hasExistingReply db1.responses tid email.in_reply_to then
      if env.intent.intent == "duplicate" && mkRat 7 10 < env.intent.confidence then
        let (db2, sent) : DB × List SentMsg :=
          match findBusiness db1.businesses bid with
          | none => (db1, [])
          | some _business =>
            match findCustomer db1.customers email.from_email bid with
            | none => (db1, [])
            | some customer =>
              let r := send_email db1 env customer.email
                ("Re: " ++ email.subject) ackBody (some email.message_id)
              (r.1, optList r.2.2)
        let db3 := markEmail db2 email.id
          (fun r => { r with processed := true, processed_at := some env.now })
        .ok (db3, sent)
      else main_flow fuel db1 env email bid
    else main_flow fuel db1 env email bid
  | none => main_flow fuel db1 env email bid

/-- `QuoteService.process_email_and_generate_quote` (source lines 147-348):
load the inbound row, resolve the business, run the duplicate-thread
suppression (step 2), then the main flow. -/
def process_email_and_generate_quote (fuel : Nat) (db : DB) (env : Env)
    (email_id : Nat) : Except String (DB × List SentMsg) :=
  match db.inbox.find? (fun r => r.id == email_id) with
  | none => .ok (db, [])
  | some email =>
    if email.processed then .ok (db, [])
    else
      match email.business_id with
      | some b => thread_suppression_then_main fuel db env email b
      | none =>
        match identify_business db email.to_email with
        | .ok b =>
          thread_suppression_then_main fuel
            (markEmail db email_id (fun r => { r with business_id := some b.id }))
            env email b.id
        | .error e => .error e

/-!
### The polling loop body (`app/services/scheduler_service.py` lines 66-135)
-/

/-- One message as parsed by `imap_service.fetch_unread_emails`. -/
structure FetchedEmail where
  message_id : String
  from_email : String
  from_name : Option String := none
  to_email : String := ""
  subject : String := ""
  body : String := ""
  received_at : Nat := 0
  in_reply_to : Option String := none
  references : Option String := none
  thread_id : Option String := none
deriving DecidableEq

/-- The per-message body of `poll_business_emails`: skip when the external
message id is already on file, otherwise resolve the recipient business
(falling back to the polled business on a lookup exception), derive
`is_reply_to_us`, insert the row, mark read (server-side only), process.
An exception is caught and rolls the session back to the last commit, i.e.
to the state before this message's insert; messages already transmitted
are not undone. -/
def ingest_email (fuel : Nat) (db : DB) (env : Env) (poll_business : BusinessRow)
    (e : FetchedEmail) : DB × List SentMsg :=
  if db.inbox.any (fun r => r.message_id == e.message_id) then (db, [])
  else
    let bid :=
      if e.to_email ≠ "" then
        match identify_business db e.to_email with
        | .ok b => b.id
        | .error _ => poll_business.id
      else poll_business.id
    let is_reply :=
      match e.in_reply_to with
      | some irt => db.responses.any (fun r => r.message_id == some irt)
      | none => false
    let row : EmailRow :=
      { id := nextEmailId db, business_id := some bid, message_id := e.message_id,
        from_email := e.from_email, from_name := e.from_name, to_email := e.to_email,
        subject := e.subject, body := e.body, received_at := e.received_at,
        in_reply_to := e.in_reply_to, references := e.references,
        thread_id := e.thread_id, is_reply_to_us := is_reply }
    let db1 := { db with inbox := db.inbox ++ [row] }
    match process_email_and_generate_quote fuel db1 env row.id with
    | .ok (db2, sent) => (db2, sent)
    | .error _ => (db, [])

/-!
### `OAuthService` (`app/services/oauth_service.py`)
-/

/-- The token dictionary produced by a successful refresh exchange (the
fields `get_valid_access_token` reads back). -/
structure TokenDict where
  access_token : String
  expiry : Option Int := none
deriving DecidableEq

/-- External collaborators of the credential manager: `decrypt_token`
(Fernet; returns `""` on any failure, `app/utils.py` lines 74-85) and the
outcome of the network refresh against the token endpoint. -/
structure OAuthEnv where
  decrypt : String → String
  refresh_result : Option TokenDict

/-- The stored credential columns of a `businesses` row that
`get_valid_access_token` receives copies of. -/
structure CredBundle where
  oauth_refresh_token_encrypted : String
  oauth_access_token_encrypted : Option String := none
  oauth_token_expires_at : Option Int := none
deriving DecidableEq

/-- `OAuthService.refresh_access_token` (source lines 141-181): decrypt the
stored refresh token (falsy plaintext aborts), then perform the refresh
exchange; any exception yields `None`. -/
def refresh_access_token (env : OAuthEnv) (refresh_token_encrypted : String) :
    Option TokenDict :=
  if env.decrypt refresh_token_encrypted = "" then none
  else env.refresh_result

/-- `OAuthService.get_valid_access_token` (source lines 183-213): return the
decrypted cached token while `now < expires_at − 5 min` (and both cached
fields are truthy); otherwise refresh and return the new access token, or
`None` when the refresh fails.  Nothing is written back anywhere. -/
def get_valid_access_token (env : OAuthEnv) (refresh_token_encrypted : String)
    (access_token_encrypted : Option String) (expires_at : Option Int)
    (now : Int) : Option String :=
  match access_token_encrypted, expires_at with
  | some a, some t =>
    if a ≠ "" ∧ now < t - 300 then some (env.decrypt a)
    else (refresh_access_token env refresh_token_encrypted).map
      (fun d => d.access_token)
  | _, _ =>
    (refresh_access_token env refresh_token_encrypted).map (fun d => d.access_token)

/-- The cached-token freshness condition of the source, as a predicate. -/
def cacheFresh (b : CredBundle) (now : Int) : Bool :=
  match b.oauth_access_token_encrypted, b.oauth_token_expires_at with
  | some a, some t => if a = "" then false else decide (now < t - 300)
  | _, _ => false

/-- One caller-side use of the credential manager.  Every caller
(`email_service`, `imap_service`) passes copies of the stored columns and
assigns nothing back; the only writes to the token columns in the code base
are in the OAuth callback route (`app/routers/oauth.py` lines 116-117) and
the disconnect route (lines 189-190).  A call therefore returns the token
and leaves the stored bundle exactly as it was. -/
def use_valid_access_token (env : OAuthEnv) (b : CredBundle) (now : Int) :
    Option String × CredBundle :=
  (get_valid_access_token env b.oauth_refresh_token_encrypted
     b.oauth_access_token_encrypted b.oauth_token_expires_at now, b)

/-!
### Derived notions used by the statements below
-/

/-- The variable names of the formula input surface (spec §6; the pricing
caller supplies exactly `area`, `base_price`, `rate`, `length`, `width`). -/
def allowedVars : List String := ["area", "base_price", "rate", "length", "width"]

/-- Marking an inbound row processed at a timestamp. -/
def procMark (now : Nat) (r : EmailRow) : EmailRow :=
  { r with processed := true, processed_at := some now }

/-- The condition under which `process_email_and_generate_quote` takes the
duplicate-acknowledgment branch (source lines 166-184). -/
def dupBranchTaken (db : DB) (env : Env) (email : EmailRow) : Bool :=
  match pyOrOpt email.thread_id email.in_reply_to with
  | some tid =>
    hasExistingReply db.responses tid email.in_reply_to &&
      (env.intent.intent == "duplicate" && mkRat 7 10 < env.intent.confidence)
  | none => false

/-- Number of inbox rows carrying a given external message id. -/
def countMsg (db : DB) (mid : String) : Nat :=
  db.inbox.countP (fun r => r.message_id == mid)

/-!
### Frame lemmas about the pipeline
-/

theorem create_quote_frame {fuel : Nat} {db : DB} {env : Env} {bid : Option Nat}
    {cid pid : Nat} {l w : ℚ} {notes : Option String} {db2 : DB} {q : QuoteRow}
    (h : create_quote fuel db env bid cid pid l w notes = .ok (db2, q)) :
    db2.inbox = db.inbox ∧ db2.responses = db.responses ∧
      db2.customers = db.customers ∧ db2.businesses = db.businesses := by
  unfold create_quote at h
  simp only [] at h
  repeat' split at h
  all_goals
    first
      | exact Except.noConfusion h
      | (simp only [Except.ok.injEq, Prod.mk.injEq] at h
         exact h.1 ▸ ⟨rfl, rfl, rfl, rfl⟩)

theorem send_quote_email_frame (db : DB) (env : Env) (dst subject body : String)
    (pdf : Option String) (qid : Nat) (irt : Option String) (rel : Option Nat) :
    (send_quote_email db env dst subject body pdf qid irt rel).1.inbox = db.inbox ∧
      (send_quote_email db env dst subject body pdf qid irt rel).1.quotes = db.quotes ∧
      (send_quote_email db env dst subject body pdf qid irt rel).1.customers =
        db.customers := by
  unfold send_quote_email
  split
  · exact ⟨rfl, rfl, rfl⟩
  · split
    · exact ⟨rfl, rfl, rfl⟩
    · exact ⟨rfl, rfl, rfl⟩

theorem send_email_frame (db : DB) (env : Env) (dst subject body : String)
    (irt : Option String) : (send_email db env dst subject body irt).1 = db := by
  unfold send_email
  split
  · rfl
  · split
    · rfl
    · rfl

theorem resolve_customer_frame (db : DB) (email : EmailRow) (bid : Nat) :
    (resolve_customer db email bid).1.inbox = db.inbox ∧
      (resolve_customer db email bid).1.responses = db.responses ∧
      (resolve_customer db email bid).1.quotes = db.quotes ∧
      (resolve_customer db email bid).1.businesses = db.businesses ∧
      (resolve_customer db email bid).1.products = db.products := by
  unfold resolve_customer
  split <;> exact ⟨rfl, rfl, rfl, rfl, rfl⟩

theorem resolve_product_frame (db : DB) (bid : Nat) (ex : ExtractResult) :
    (resolve_product db bid ex).1.inbox = db.inbox ∧
      (resolve_product db bid ex).1.responses = db.responses ∧
      (resolve_product db bid ex).1.quotes = db.quotes ∧
      (resolve_product db bid ex).1.customers = db.customers ∧
      (resolve_product db bid ex).1.businesses = db.businesses := by
  unfold resolve_product
  simp only []
  repeat' split
  all_goals exact ⟨rfl, rfl, rfl, rfl, rfl⟩

/-- Whatever branch `main_flow` completes through, the inbox ends as the
input inbox with this message marked processed, and the information-request
branch leaves the outbound-message table untouched. -/
theorem main_flow_ok {fuel : Nat} {db : DB} {env : Env} {email : EmailRow} {bid : Nat}
    {dbf : DB} {sent : List SentMsg}
    (h : main_flow fuel db env email bid = .ok (dbf, sent)) :
    dbf.inbox =
      db.inbox.map (fun r => if r.id = email.id then procMark env.now r else r)
    ∧ (env.extraction.has_complete_info = false → dbf.responses = db.responses) := by
  unfold main_flow at h
  rcases hc : resolve_customer db email bid with ⟨db1, customer⟩
  rw [hc] at h
  have hc1 : db1.inbox = db.inbox := by
    have := (resolve_customer_frame db email bid).1; rw [hc] at this; exact this
  have hc2 : db1.responses = db.responses := by
    have := (resolve_customer_frame db email bid).2.1; rw [hc] at this; exact this
  simp only [] at h
  split at h
  · -- complete-information branch
    rename_i hcomp
    rcases hp : resolve_product db1 bid env.extraction with ⟨db2, product⟩
    rw [hp] at h
    have hp1 : db2.inbox = db1.inbox := by
      have := (resolve_product_frame db1 bid env.extraction).1; rw [hp] at this
      exact this
    simp only [] at h
    cases hcq : create_quote fuel db2 env (some bid) customer.id product.id
        env.extraction.length_inches env.extraction.width_inches none with
    | error e => rw [hcq] at h; exact Except.noConfusion h
    | ok val =>
      rw [hcq] at h
      rcases val with ⟨db3, quote⟩
      have hq := create_quote_frame hcq
      simp only [] at h
      split at h
      · -- no business row: no send
        simp only [Except.ok.injEq, Prod.mk.injEq] at h
        rw [← h.1]
        refine ⟨?_, fun hf => absurd hcomp (by simp [hf])⟩
        simp only [markEmail, hq.1, hp1, hc1, procMark]
      · -- business row found: quote email attempted
        simp only [Except.ok.injEq, Prod.mk.injEq] at h
        rw [← h.1]
        have hs := send_quote_email_frame db3 env customer.email
          ("Re: " ++ email.subject ++ " - Your Quote") env.response_body
          quote.pdf_path quote.id (some email.message_id) (some email.id)
        refine ⟨?_, fun hf => absurd hcomp (by simp [hf])⟩
        simp only [markEmail, hs.1, hq.1, hp1, hc1, procMark]
  · -- information-request branch
    try simp only [] at h
    split at h
    · -- no business row: no send
      simp only [Except.ok.injEq, Prod.mk.injEq] at h
      rw [← h.1]
      exact ⟨by simp only [markEmail, hc1, procMark],
        fun _ => by simp only [markEmail, hc2]⟩
    · -- business row found: plain reply attempted, no EmailResponse row
      simp only [Except.ok.injEq, Prod.mk.injEq] at h
      rw [← h.1]
      have hs := send_email_frame db1 env customer.email
        ("Re: " ++ email.subject ++ " - More Information Needed") env.response_body
        (some email.message_id)
      exact ⟨by simp only [markEmail, hs, hc1, procMark],
        fun _ => by simp only [markEmail, hs, hc2]⟩

theorem map_msgid_update (l : List EmailRow) (i : Nat) (f : EmailRow → EmailRow)
    (hf : ∀ r, (f r).message_id = r.message_id) :
    (l.map (fun r => if r.id = i then f r else r)).map (fun r => r.message_id) =
      l.map (fun r => r.message_id) := by
  rw [List.map_map]
  apply List.map_congr_left
  intro r _
  by_cases hr : r.id = i
  · simp [hr, hf]
  · simp [hr]

theorem thread_suppression_msgIds {fuel : Nat} {db1 : DB} {env : Env}
    {email : EmailRow} {bid : Nat} {dbf : DB} {sent : List SentMsg}
    (h : thread_suppression_then_main fuel db1 env email bid = .ok (dbf, sent)) :
    dbf.inbox.map (fun r => r.message_id) = db1.inbox.map (fun r => r.message_id) := by
  have hmain :
      main_flow fuel db1 env email bid = .ok (dbf, sent) →
        dbf.inbox.map (fun r => r.message_id) =
          db1.inbox.map (fun r => r.message_id) := by
    intro hm
    rw [(main_flow_ok hm).1]
    exact map_msgid_update _ _ _ (fun _ => rfl)
  unfold thread_suppression_then_main at h
  split at h
  · split at h
    · split at h
      · -- acknowledgment path
        simp only [] at h
        have hack :
            ∀ (db2 : DB) (s2 : List SentMsg), db2.inbox = db1.inbox →
              Except.ok
                  (markEmail db2 email.id
                    (fun r => { r with processed := true, processed_at := some env.now }),
                    s2) =
                (Except.ok (dbf, sent) : Except String (DB × List SentMsg)) →
              dbf.inbox.map (fun r => r.message_id) =
                db1.inbox.map (fun r => r.message_id) := by
          intro db2 s2 hdb2 hh
          simp only [Except.ok.injEq, Prod.mk.injEq] at hh
          rw [← hh.1]
          simp only [markEmail, hdb2]
          exact map_msgid_update _ _ _ (fun _ => rfl)
        split at h
        · exact hack _ _ rfl h
        · split at h
          · exact hack _ _ rfl h
          · rename_i customer _
            exact hack _ _
              (congrArg DB.inbox (send_email_frame db1 env customer.email
                ("Re: " ++ email.subject) ackBody (some email.message_id))) h
      · exact hmain h
    · exact hmain h
  · exact hmain h

/-- A completed processing run can change inbox rows (processed flags,
business tagging) but never the multiset of external message ids. -/
theorem process_ok_msgIds {fuel : Nat} {db : DB} {env : Env} {email_id : Nat}
    {dbf : DB} {sent : List SentMsg}
    (h : process_email_and_generate_quote fuel db env email_id = .ok (dbf, sent)) :
    dbf.inbox.map (fun r => r.message_id) = db.inbox.map (fun r => r.message_id) := by
  unfold process_email_and_generate_quote at h
  split at h
  · simp only [Except.ok.injEq, Prod.mk.injEq] at h
    rw [← h.1]
  · split at h
    · simp only [Except.ok.injEq, Prod.mk.injEq] at h
      rw [← h.1]
    · split at h
      · exact thread_suppression_msgIds h
      · split at h
        · rw [thread_suppression_msgIds h]
          simp only [markEmail]
          exact map_msgid_update _ _ _ (fun _ => rfl)
        · exact Except.noConfusion h

theorem hasWordMatch_allowed_import_os {name : String} (hm : name ∈ allowedVars)
    (repl : List Char) :
    replaceWord name.data repl "import os".data = "import os".data := by
  apply replaceWordAux_of_no_match
  simp only [allowedVars, List.mem_cons, List.not_mem_nil, or_false] at hm
  rcases hm with rfl | rfl | rfl | rfl | rfl <;> decide

theorem substituteVars_import_os (ctx : List (String × ℚ))
    (hctx : ∀ p ∈ ctx, p.1 ∈ allowedVars) :
    substituteVars ctx "import os".data = "import os".data := by
  unfold substituteVars
  have hsorted : ∀ p ∈ sortVarsDesc ctx, p.1 ∈ allowedVars :=
    fun p hp => hctx p (mem_sortVarsDesc hp)
  generalize sortVarsDesc ctx = l at hsorted
  induction l with
  | nil => rfl
  | cons p ps ih =>
    simp only [List.foldl_cons]
    rw [hasWordMatch_allowed_import_os (hsorted p (by simp)) (ratToChars p.2)]
    exact ih (fun q hq => hsorted q (List.mem_cons_of_mem _ hq))

/-!
### The claims
-/

/-- C1: for every formula whose variable-substituted form contains a
denylisted token, `_safe_eval` raises the security `ValueError` (the check
runs before any evaluation, as the definition of `safe_eval` orders it); in
particular `"import os"` is rejected under every assignment of the
recognized formula variables. -/
theorem C1_denylist_rejected_before_evaluation :
    (∀ (fuel : Nat) (formula : List Char) (context : List (String × ℚ)) (d : Danger),
        findDangerous (substituteVars context (pyStrip formula)) = some d →
        safe_eval (fuel + 1) formula context = .error (.security d))
    ∧ (∀ (fuel : Nat) (context : List (String × ℚ)),
        (∀ p ∈ context, p.1 ∈ allowedVars) →
        safe_eval (fuel + 1) "import os".data context =
          .error (.security .importTok)) := by
  constructor
  · intro fuel formula context d h
    unfold safe_eval
    simp only [h]
    rfl
  · intro fuel context hctx
    have hstrip : pyStrip "import os".data = "import os".data := by decide
    unfold safe_eval
    rw [hstrip, substituteVars_import_os context hctx]
    simp only []
    rw [show findDangerous "import os".data = some Danger.importTok from by decide]
    rfl

/-- Witness for C1 at concrete inputs. -/
theorem C1_witness :
    safe_eval 1 "__x__".data [] = .error (.security .dunder)
    ∧ safe_eval 1 "import os".data [("area", 100)] =
        .error (.security .importTok) := by
  refine ⟨?_, ?_⟩
  · exact C1_denylist_rejected_before_evaluation.1 0 "__x__".data [] .dunder (by decide)
  · exact C1_denylist_rejected_before_evaluation.2 0 [("area", 100)] (by decide)

/-- C8: the two documented formula evaluations, and the fallback policy:
whenever `_safe_eval` fails, `execute_formula` returns `area * rate`
instead of raising, so formula failures never block quote generation
(`execute_formula` is a total function). -/
theorem C8_formula_examples_and_fallback :
    execute_formula 64 "area * rate" 100 0 (mkRat 1 20) [] = 5
    ∧ execute_formula 64 "base_price + (area * rate)" 200 10 (mkRat 1 10) [] = 30
    ∧ ∀ (fuel : Nat) (formula : String) (area base_price rate : ℚ)
        (kwargs : List (String × ℚ)) (e : EvalErr),
        safe_eval fuel formula.data
            (("area", area) :: ("base_price", base_price) :: ("rate", rate) ::
              kwargs) = .error e →
        execute_formula fuel formula area base_price rate kwargs = area * rate := by
  refine ⟨by decide, by decide, ?_⟩
  intro fuel formula area base_price rate kwargs e h
  unfold execute_formula
  split
  · exact qmul_eq area rate
  · simp only [h]
    exact qmul_eq area rate

/-- Witness for C8's fallback clause at a concrete failing formula. -/
theorem C8_witness :
    safe_eval 9 "1/0".data
        (("area", (7 : ℚ)) :: ("base_price", (0 : ℚ)) :: ("rate", mkRat 1 20) :: []) =
      .error (.pyErr .zeroDiv)
    ∧ execute_formula 9 "1/0" 7 0 (mkRat 1 20) [] = 7 * mkRat 1 20 := by
  have h : safe_eval 9 "1/0".data
      (("area", (7 : ℚ)) :: ("base_price", (0 : ℚ)) :: ("rate", mkRat 1 20) :: []) =
        .error (.pyErr .zeroDiv) := by decide
  exact ⟨h, C8_formula_examples_and_fallback.2.2 9 "1/0" 7 0 (mkRat 1 20) []
    (.pyErr .zeroDiv) h⟩

/-- C9 counterexample: a natural-language conditional whose else branch is a
ternary is reassociated by the `" if "` split — `_eval_conditional` returns
9 where the claim requires the then-branch value 5 (the outer condition
`1 < 2` holds); and a conditional nested in the then-branch raises instead
of evaluating to 10. -/
theorem C9_counterexample :
    safe_eval 99 "if 1 < 2 then 5 else 7 if 0 > 1 else 9".data [] = .ok (.num 9)
    ∧ (Except.ok (Value.num 9) : Except EvalErr Value) ≠ .ok (.num 5)
    ∧ safe_eval 99 "if 1 < 2 then if 3 < 4 then 10 else 20 else 30".data [] =
        .error (.pyErr .synErr) := by
  exact ⟨by decide, by decide, by decide⟩

/-- C9 amended: both conditional forms select the branch matching the
condition when no branch is itself an unparenthesized conditional; the
Python ternary form also nests (parenthesized anywhere, or in the trailing
else position); a conditional nested inside a natural-language form is
misassociated or fails (see the counterexample). -/
theorem C9_amended_conditionals :
    safe_eval 99 "0.1 if area > 1000 else 0.05".data [("area", 2000)] =
        .ok (.num (mkRat 1 10))
    ∧ safe_eval 99 "0.1 if area > 1000 else 0.05".data [("area", 100)] =
        .ok (.num (mkRat 1 20))
    ∧ safe_eval 99 "if area > 1000 then 0.1 else 0.05".data [("area", 2000)] =
        .ok (.num (mkRat 1 10))
    ∧ safe_eval 99 "if area > 1000 then 0.1 else 0.05".data [("area", 100)] =
        .ok (.num (mkRat 1 20))
    ∧ safe_eval 99 "0.2 if area > 5000 else 0.1 if area > 1000 else 0.05".data
        [("area", 2000)] = .ok (.num (mkRat 1 10))
    ∧ safe_eval 99 "(0.2 if area > 5000 else 0.1) if area > 1000 else 0.05".data
        [("area", 6000)] = .ok (.num (mkRat 1 5)) := by
  exact ⟨by decide, by decide, by decide, by decide, by decide, by decide⟩

/-- A one-product catalog with the legacy rate and default bounds, on which
a 10×10 order prices to 5 and is clamped to the 50 minimum. -/
def c2Products : List ProductRow := [{ id := 1, business_id := 1, name := "Felt Rug" }]

/-- C2 counterexample: after the clamp raises the total from 5 to 50, the
returned unit price is still the pre-clamp 0.05, not `total / area = 0.5` —
the source computes the unit price before the clamp and never recomputes. -/
theorem C2_counterexample :
    (calculate_price 9 c2Products 1 10 10).total_price = 50
    ∧ (calculate_price 9 c2Products 1 10 10).area_sq_inches = 100
    ∧ (calculate_price 9 c2Products 1 10 10).unit_price = mkRat 1 20
    ∧ (calculate_price 9 c2Products 1 10 10).unit_price ≠
        (calculate_price 9 c2Products 1 10 10).total_price /
          (calculate_price 9 c2Products 1 10 10).area_sq_inches := by
  refine ⟨by decide, by decide, by decide, ?_⟩
  rw [show (calculate_price 9 c2Products 1 10 10).total_price = 50 from by decide,
    show (calculate_price 9 c2Products 1 10 10).area_sq_inches = 100 from by decide,
    show (calculate_price 9 c2Products 1 10 10).unit_price = mkRat 1 20 from by decide]
  intro hc
  rw [show (mkRat 1 20 : ℚ) = 1 / 20 from by norm_num [Rat.mkRat_eq_div]] at hc
  norm_num at hc

/-- C2 amended: whenever the raw (pre-clamp) total is below the configured
minimum, the returned total is exactly that minimum; the returned unit
price is the rounded *pre-clamp* unit value (`total/area` in the formula
branch, the flat rate in the legacy branch), not recomputed after the
clamp. -/
theorem C2_amended (fuel : Nat) (products : List ProductRow) (pid : Nat) (l w : ℚ)
    (h : (rawTotalUnit fuel products pid l w).1 < MIN_ORDER_AMOUNT) :
    (calculate_price fuel products pid l w).total_price = MIN_ORDER_AMOUNT
    ∧ (calculate_price fuel products pid l w).unit_price =
        pyRound (rawTotalUnit fuel products pid l w).2 4 := by
  constructor
  · unfold calculate_price
    simp only [if_pos h]
    decide
  · rfl

/-- Witness for C2's amended clamp clause at the counterexample input. -/
theorem C2_witness :
    (rawTotalUnit 9 c2Products 1 10 10).1 < MIN_ORDER_AMOUNT
    ∧ ((calculate_price 9 c2Products 1 10 10).total_price = MIN_ORDER_AMOUNT
       ∧ (calculate_price 9 c2Products 1 10 10).unit_price =
           pyRound (rawTotalUnit 9 c2Products 1 10 10).2 4) := by
  have h : (rawTotalUnit 9 c2Products 1 10 10).1 < MIN_ORDER_AMOUNT := by decide
  exact ⟨h, C2_amended 9 c2Products 1 10 10 h⟩

/-- The database and oracle outputs of an email asking for a 2×2 "Felt Rug"
(area 4, far below the product's minimum of 100 square inches). -/
def c3DB : DB :=
  { businesses := [{ id := 1, email := "info@acme.com" }],
    products := [{ id := 1, business_id := 1, name := "Felt Rug" }],
    inbox := [{ id := 1, business_id := some 1, message_id := "m1",
                from_email := "cust@example.com", subject := "Quote request" }] }

def c3Env : Env :=
  { extraction := { product_name := some "Felt Rug", length_inches := 2,
                    width_inches := 2, has_complete_info := true } }

/-- C3 counterexample: the email pipeline never consults
`validate_dimensions`; an email with area 4 (minimum 100) produces a
persisted quote of area 4 and an outbound quote email, with no rejection. -/
theorem C3_counterexample :
    (process_email_and_generate_quote 9 c3DB c3Env 1).map
        (fun p => (p.1.quotes.map (fun q => q.area_sq_inches), p.2.length)) =
      .ok ([4], 1)
    ∧ validate_dimensions c3DB.products 1 2 2 =
        (false, some "Minimum size is not met") := by
  exact ⟨by decide, by decide⟩

/-- C3 amended: dimension-bounds rejection exists only on the HTTP
quote-creation endpoint: `validate_dimensions` flags the violation and the
route aborts with HTTP 400 before `create_quote`, persisting nothing.  The
email pipeline performs no such check (see the counterexample). -/
theorem C3_amended (fuel : Nat) (db : DB) (env : Env) (business_id : Option Nat)
    (customer_id product_id : Nat) (l w : ℚ) (notes : Option String)
    (p : ProductRow) (hp : findProduct db.products product_id = some p)
    (hbad : qmul l w < p.min_size_sq_in ∨ p.max_size_sq_in < qmul l w) :
    (validate_dimensions db.products product_id l w).1 = false
    ∧ ∀ x, api_create_quote fuel db env business_id customer_id product_id
        l w notes ≠ .ok x := by
  have hv : (validate_dimensions db.products product_id l w).1 = false := by
    unfold validate_dimensions
    rw [hp]
    simp only []
    rcases hbad with hb | hb
    · rw [if_pos hb]
    · by_cases h1 : qmul l w < p.min_size_sq_in
      · rw [if_pos h1]
      · rw [if_neg h1, if_pos hb]
  refine ⟨hv, fun x hx => ?_⟩
  unfold api_create_quote at hx
  simp only [hv, Bool.false_eq_true, if_false] at hx
  exact Except.noConfusion hx

/-- Witness for C3's amended endpoint-rejection clause. -/
theorem C3_witness :
    (validate_dimensions c3DB.products 1 2 2).1 = false
    ∧ ∀ x, api_create_quote 9 c3DB c3Env (some 1) 1 1 2 2 none ≠ .ok x :=
  C3_amended 9 c3DB c3Env (some 1) 1 1 2 2 none
    { id := 1, business_id := 1, name := "Felt Rug" } (by decide)
    (Or.inl (by decide))

theorem countMsg_eq_countP_map (db : DB) (m : String) :
    countMsg db m =
      (db.inbox.map (fun r => r.message_id)).countP (fun s => s == m) := by
  unfold countMsg
  rw [List.countP_map]
  rfl

theorem countMsg_eq_of_msgIds {dbA dbB : DB} (m : String)
    (h : dbA.inbox.map (fun r => r.message_id) =
      dbB.inbox.map (fun r => r.message_id)) :
    countMsg dbA m = countMsg dbB m := by
  rw [countMsg_eq_countP_map, countMsg_eq_countP_map, h]

theorem any_msg_of_countMsg_one {db : DB} {m : String} (h : countMsg db m = 1) :
    db.inbox.any (fun r => r.message_id == m) = true := by
  rw [List.any_eq_true]
  exact List.countP_pos_iff.mp (by rw [countMsg] at h; omega)

theorem any_msg_false_of_countMsg_zero {db : DB} {m : String}
    (h : countMsg db m = 0) :
    db.inbox.any (fun r => r.message_id == m) = false := by
  rw [List.any_eq_false]
  intro r hr
  have := List.countP_eq_zero.mp h r hr
  simp only [this]
  exact Bool.false_ne_true

/-- The skip branch of `ingest_email`, stated on its own. -/
theorem ingest_skip {fuel : Nat} {db : DB} {env : Env} {pb : BusinessRow}
    {e : FetchedEmail}
    (h : db.inbox.any (fun r => r.message_id == e.message_id) = true) :
    ingest_email fuel db env pb e = (db, []) := by
  unfold ingest_email
  rw [if_pos h]

/-- C4: the poller's dedup — a message whose external id is already on file
is skipped outright (no new row, no orchestration, nothing sent); starting
from no row, one ingestion yields at most one row with that id, and once
exactly one row exists a second ingestion of the same message is a complete
no-op. -/
theorem C4_ingest_idempotent :
    ∀ (fuel fuel2 : Nat) (db : DB) (env env2 : Env) (pb pb2 : BusinessRow)
      (e : FetchedEmail),
      (db.inbox.any (fun r => r.message_id == e.message_id) = true →
        ingest_email fuel db env pb e = (db, []))
      ∧ (countMsg db e.message_id = 0 →
          countMsg (ingest_email fuel db env pb e).1 e.message_id ≤ 1
          ∧ (countMsg (ingest_email fuel db env pb e).1 e.message_id = 1 →
              ingest_email fuel2 (ingest_email fuel db env pb e).1 env2 pb2 e =
                ((ingest_email fuel db env pb e).1, []))) := by
  intro fuel fuel2 db env env2 pb pb2 e
  refine ⟨ingest_skip, ?_⟩
  intro h0
  have hone : countMsg (ingest_email fuel db env pb e).1 e.message_id ≤ 1 := by
    unfold ingest_email
    rw [if_neg (by rw [any_msg_false_of_countMsg_zero h0]; exact Bool.false_ne_true)]
    simp only []
    split
    · rename_i db2 sent hp
      have hmap := process_ok_msgIds hp
      rw [countMsg_eq_countP_map, hmap]
      rw [← countMsg_eq_countP_map]
      unfold countMsg
      rw [List.countP_append]
      rw [show db.inbox.countP (fun r => r.message_id == e.message_id) = 0 from h0]
      simp
    · rw [h0]
      omega
  refine ⟨hone, fun h1 => ingest_skip (any_msg_of_countMsg_one h1)⟩

def c4PB : BusinessRow := { id := 1, email := "info@acme.com" }

def c4Fetched : FetchedEmail := { message_id := "mid-1", from_email := "c@x.com" }

/-- Witness for C4 on a concrete empty database. -/
theorem C4_witness :
    countMsg ({} : DB) c4Fetched.message_id = 0
    ∧ (countMsg (ingest_email 9 {} {} c4PB c4Fetched).1 c4Fetched.message_id ≤ 1
       ∧ (countMsg (ingest_email 9 {} {} c4PB c4Fetched).1 c4Fetched.message_id = 1 →
           ingest_email 9 (ingest_email 9 {} {} c4PB c4Fetched).1 {} c4PB c4Fetched =
             ((ingest_email 9 {} {} c4PB c4Fetched).1, []))) := by
  have h0 : countMsg ({} : DB) c4Fetched.message_id = 0 := by decide
  exact ⟨h0, (C4_ingest_idempotent 9 9 {} {} {} c4PB c4PB c4Fetched).2 h0⟩

/-- A thread that was already replied to (an `EmailResponse` row with
thread id `"T"`), whose follow-up arrives from a sender with no customer
record. -/
def c5DB : DB :=
  { businesses := [{ id := 1, email := "info@acme.com" }],
    inbox := [{ id := 1, business_id := some 1, message_id := "m2",
                from_email := "new@example.com", subject := "quote",
                in_reply_to := some "orig", thread_id := some "T" }],
    responses := [{ to_email := "cust@example.com", thread_id := some "T" }] }

def c5Env : Env := { intent := { intent := "duplicate", confidence := mkRat 8 10 } }

/-- C5 counterexample: with the thread matched and the classifier saying
`duplicate` at confidence 0.8, processing marks the message processed and
creates no quote — but sends *nothing*, because no customer row matches the
sender; the claim's unconditional "sends an acknowledgment" fails. -/
theorem C5_counterexample :
    (process_email_and_generate_quote 9 c5DB c5Env 1).map (fun p => p.2) = .ok []
    ∧ (process_email_and_generate_quote 9 c5DB c5Env 1).map
        (fun p => p.1.quotes.length) = .ok 0
    ∧ (process_email_and_generate_quote 9 c5DB c5Env 1).map
        (fun p => p.1.responses) = .ok c5DB.responses
    ∧ (process_email_and_generate_quote 9 c5DB c5Env 1).map
        (fun p => p.1.inbox.map (fun r => (r.processed, r.processed_at))) =
      .ok [(true, some 0)] := by
  exact ⟨by decide, by decide, by decide, by decide⟩

/-- C5 amended: under the claim's premises *plus* the existence of the
business row and of a customer record matching the sender, and a send that
goes through, the duplicate branch sends exactly the acknowledgment, marks
the message processed with the timestamp, and changes nothing else — in
particular no quote and no `EmailResponse` row are created and the
extraction/pricing steps never run. -/
theorem C5_amended (fuel : Nat) (db : DB) (env : Env) (email_id : Nat)
    (email : EmailRow) (bid : Nat) (tid : String) (business : BusinessRow)
    (customer : CustomerRow)
    (hfind : db.inbox.find? (fun r => r.id == email_id) = some email)
    (hproc : email.processed = false)
    (hbid : email.business_id = some bid)
    (htid : pyOrOpt email.thread_id email.in_reply_to = some tid)
    (hex : hasExistingReply db.responses tid email.in_reply_to = true)
    (hint : env.intent.intent = "duplicate")
    (hconf : mkRat 7 10 < env.intent.confidence)
    (hbus : findBusiness db.businesses bid = some business)
    (hcust : findCustomer db.customers email.from_email bid = some customer)
    (htok : env.token_ok = true) (hsmtp : env.smtp_ok = true) :
    process_email_and_generate_quote fuel db env email_id =
      .ok (markEmail db email.id (procMark env.now),
        [{ to_email := customer.email, subject := "Re: " ++ email.subject,
           body := ackBody, in_reply_to := some email.message_id }])
    ∧ (markEmail db email.id (procMark env.now)).quotes = db.quotes
    ∧ (markEmail db email.id (procMark env.now)).responses = db.responses := by
  refine ⟨?_, rfl, rfl⟩
  unfold process_email_and_generate_quote
  rw [hfind]
  simp only [hproc, Bool.false_eq_true, if_false, hbid]
  unfold thread_suppression_then_main
  rw [htid]
  simp only [hex, if_true, hint, beq_self_eq_true, Bool.true_and,
    decide_eq_true hconf, if_true, hbus, hcust]
  unfold send_email
  simp only [htok, hsmtp, Bool.not_true, Bool.false_eq_true, if_false, if_true,
    optList]
  rfl

def c5wRow : EmailRow :=
  { id := 1, business_id := some 1, message_id := "m3",
    from_email := "cust@example.com", subject := "quote",
    in_reply_to := some "orig", thread_id := some "T" }

def c5wCust : CustomerRow := { id := 1, business_id := 1, email := "cust@example.com" }

def c5wDB : DB :=
  { businesses := [{ id := 1, email := "info@acme.com" }],
    customers := [c5wCust],
    inbox := [c5wRow],
    responses := [{ to_email := "cust@example.com", thread_id := some "T" }] }

/-- Witness for C5's amended duplicate-acknowledgment behaviour. -/
theorem C5_witness :
    process_email_and_generate_quote 9 c5wDB c5Env 1 =
      .ok (markEmail c5wDB c5wRow.id (procMark c5Env.now),
        [{ to_email := c5wCust.email, subject := "Re: " ++ c5wRow.subject,
           body := ackBody, in_reply_to := some c5wRow.message_id }])
    ∧ (markEmail c5wDB c5wRow.id (procMark c5Env.now)).quotes = c5wDB.quotes
    ∧ (markEmail c5wDB c5wRow.id (procMark c5Env.now)).responses = c5wDB.responses :=
  C5_amended 9 c5wDB c5Env 1 c5wRow 1 "T"
    { id := 1, email := "info@acme.com" } c5wCust
    (by decide) rfl rfl rfl (by decide) rfl (by decide) (by decide) (by decide)
    rfl rfl

/-- C6 counterexample: an expired bundle refreshed successfully does *not*
have its cached token/expiry replaced — the stored columns come back
unchanged, and an identical second call at the same instant performs the
refresh exchange again (observable: it returns whatever the second exchange
yields, not the first fresh token from a cache). -/
theorem C6_counterexample :
    use_valid_access_token
        { decrypt := fun _ => "refresh-plain", refresh_result := some { access_token := "T2" } }
        { oauth_refresh_token_encrypted := "RT",
          oauth_access_token_encrypted := some "OLD",
          oauth_token_expires_at := some 1000 } 5000 =
      (some "T2",
        { oauth_refresh_token_encrypted := "RT",
          oauth_access_token_encrypted := some "OLD",
          oauth_token_expires_at := some 1000 })
    ∧ use_valid_access_token
        { decrypt := fun _ => "refresh-plain", refresh_result := some { access_token := "T3" } }
        { oauth_refresh_token_encrypted := "RT",
          oauth_access_token_encrypted := some "OLD",
          oauth_token_expires_at := some 1000 } 5000 =
      (some "T3",
        { oauth_refresh_token_encrypted := "RT",
          oauth_access_token_encrypted := some "OLD",
          oauth_token_expires_at := some 1000 })
    ∧ (some "T3" : Option String) ≠ some "T2" := by
  refine ⟨?_, ?_, by decide⟩ <;> rfl

/-- C6 amended: `get_valid_access_token` returns the decrypted cached token
exactly when both cached fields are present (and the token nonempty) and
`now < expiry − 5 min`; otherwise it refreshes, returning the fresh access
token on success and `None` on failure — and in every case the stored
bundle is left untouched (only the OAuth callback route ever writes it). -/
theorem C6_amended (env : OAuthEnv) (b : CredBundle) (now : Int) :
    (∀ a t, b.oauth_access_token_encrypted = some a →
      b.oauth_token_expires_at = some t → a ≠ "" → now < t - 300 →
      use_valid_access_token env b now = (some (env.decrypt a), b))
    ∧ (cacheFresh b now = false →
        use_valid_access_token env b now =
          ((refresh_access_token env b.oauth_refresh_token_encrypted).map
            (fun d => d.access_token), b))
    ∧ (cacheFresh b now = false → env.refresh_result = none →
        use_valid_access_token env b now = (none, b))
    ∧ (use_valid_access_token env b now).2 = b := by
  have hrefresh : cacheFresh b now = false →
      use_valid_access_token env b now =
        ((refresh_access_token env b.oauth_refresh_token_encrypted).map
          (fun d => d.access_token), b) := by
    intro hstale
    unfold use_valid_access_token get_valid_access_token
    simp only [Prod.mk.injEq]
    refine ⟨?_, trivial⟩
    rcases hacc : b.oauth_access_token_encrypted with _ | a
    · rfl
    · rcases hexp : b.oauth_token_expires_at with _ | t
      · rfl
      · unfold cacheFresh at hstale
        rw [hacc, hexp] at hstale
        simp only [] at hstale
        dsimp only []
        rw [if_neg ?hcond]
        case hcond =>
          rintro ⟨hne, hlt⟩
          rw [if_neg hne, decide_eq_true hlt] at hstale
          exact Bool.noConfusion hstale
  refine ⟨?_, hrefresh, ?_, rfl⟩
  · intro a t ha ht hne hfresh
    unfold use_valid_access_token get_valid_access_token
    simp only [Prod.mk.injEq]
    rw [ha, ht]
    simp only []
    rw [if_pos (And.intro hne hfresh)]
    exact ⟨rfl, trivial⟩
  · intro hstale hnone
    rw [hrefresh hstale]
    unfold refresh_access_token
    rw [hnone]
    split <;> rfl

def c6EnvW : OAuthEnv :=
  { decrypt := fun _ => "PLAIN", refresh_result := some { access_token := "NEW" } }

def c6BW : CredBundle :=
  { oauth_refresh_token_encrypted := "RT",
    oauth_access_token_encrypted := some "ENC",
    oauth_token_expires_at := some 10000 }

def c6BW2 : CredBundle := { oauth_refresh_token_encrypted := "RT" }

/-- Witness for C6's amended cache/refresh dichotomy. -/
theorem C6_witness :
    use_valid_access_token c6EnvW c6BW 0 = (some (c6EnvW.decrypt "ENC"), c6BW)
    ∧ use_valid_access_token c6EnvW c6BW2 0 =
        ((refresh_access_token c6EnvW c6BW2.oauth_refresh_token_encrypted).map
          (fun d => d.access_token), c6BW2) :=
  ⟨(C6_amended c6EnvW c6BW 0).1 "ENC" 10000 rfl rfl (by decide) (by decide),
   (C6_amended c6EnvW c6BW2 0).2.1 (by decide)⟩

/-- C7 counterexample: the plain-text send path (information requests and
acknowledgments) records nothing at all on failure — an SMTP failure
returns `False` with the response table untouched, so not *every* outbound
send path records a `failed` row. -/
theorem C7_counterexample :
    (send_email {} { smtp_ok := false } "c@x.com" "s" "b" none).1.responses = []
    ∧ (send_email {} { smtp_ok := false } "c@x.com" "s" "b" none).2.1 = false := by
  exact ⟨rfl, rfl⟩

/-- C7 amended: only `send_quote_email` writes the audit row, and only for
failures of the SMTP exchange itself — a missing access token returns
`False` with no row, and the plain-text `send_email` never writes a row on
any path. -/
theorem C7_amended (db : DB) (env : Env) (dst subject body : String)
    (pdf : Option String) (qid : Nat) (irt : Option String) (rel : Option Nat) :
    (env.token_ok = true → env.smtp_ok = false →
      (send_quote_email db env dst subject body pdf qid irt rel).1.responses =
        db.responses ++
          [{ quote_id := some qid, to_email := dst, subject, body,
             status := "failed" }])
    ∧ (env.token_ok = false →
        (send_quote_email db env dst subject body pdf qid irt rel).1.responses =
          db.responses)
    ∧ (send_email db env dst subject body irt).1.responses = db.responses := by
  refine ⟨?_, ?_, by rw [send_email_frame]⟩
  · intro htok hsmtp
    unfold send_quote_email
    simp only [htok, hsmtp, Bool.not_true, Bool.false_eq_true, if_false]
  · intro htok
    unfold send_quote_email
    simp only [htok, Bool.not_false, if_true]

/-- Witness for C7's amended record-on-failure clauses. -/
theorem C7_witness :
    (send_quote_email {} { smtp_ok := false } "c@x.com" "s" "b" none 7 none
        none).1.responses =
      ({} : DB).responses ++
        [{ quote_id := some 7, to_email := "c@x.com", subject := "s", body := "b",
           status := "failed" }]
    ∧ (send_quote_email {} { token_ok := false } "c@x.com" "s" "b" none 7 none
        none).1.responses = ({} : DB).responses :=
  ⟨(C7_amended {} { smtp_ok := false } "c@x.com" "s" "b" none 7 none none).1 rfl rfl,
   (C7_amended {} { token_ok := false } "c@x.com" "s" "b" none 7 none none).2.1 rfl⟩

/-- C10: the plain-text reply operation never writes an `EmailResponse`
row (success or failure), and consequently a run that completes through
the information-request branch leaves the outbound-message table — the
index the duplicate-reply check queries — exactly as it was. -/
theorem C10_send_email_frame_effect :
    (∀ (db : DB) (env : Env) (dst subject body : String) (irt : Option String),
        (send_email db env dst subject body irt).1 = db)
    ∧ (∀ (fuel : Nat) (db : DB) (env : Env) (email_id : Nat) (email : EmailRow)
        (bid : Nat) (dbf : DB) (sent : List SentMsg),
        db.inbox.find? (fun r => r.id == email_id) = some email →
        email.processed = false →
        email.business_id = some bid →
        dupBranchTaken db env email = false →
        env.extraction.has_complete_info = false →
        process_email_and_generate_quote fuel db env email_id = .ok (dbf, sent) →
        dbf.responses = db.responses) := by
  refine ⟨send_email_frame, ?_⟩
  intro fuel db env email_id email bid dbf sent hfind hproc hbid hskip hinc hok
  unfold process_email_and_generate_quote at hok
  rw [hfind] at hok
  simp only [hproc, Bool.false_eq_true, if_false, hbid] at hok
  unfold thread_suppression_then_main at hok
  unfold dupBranchTaken at hskip
  rcases hopt : pyOrOpt email.thread_id email.in_reply_to with _ | tid
  · rw [hopt] at hok
    exact (main_flow_ok hok).2 hinc
  · rw [hopt] at hok hskip
    rw [Bool.and_eq_false_iff] at hskip
    rcases hskip with hskip | hskip
    · simp only [hskip, Bool.false_eq_true, if_false] at hok
      exact (main_flow_ok hok).2 hinc
    · by_cases hex : hasExistingReply db.responses tid email.in_reply_to
      · simp only [hex, if_true, hskip, Bool.false_eq_true, if_false] at hok
        exact (main_flow_ok hok).2 hinc
      · rw [Bool.not_eq_true] at hex
        simp only [hex, Bool.false_eq_true, if_false] at hok
        exact (main_flow_ok hok).2 hinc

def c10DB : DB :=
  { businesses := [{ id := 1, email := "info@acme.com" }],
    inbox := [{ id := 1, business_id := some 1, message_id := "m4",
                from_email := "cust@example.com", subject := "quote please" }] }

def c10Row : EmailRow :=
  { id := 1, business_id := some 1, message_id := "m4",
    from_email := "cust@example.com", subject := "quote please" }

/-- Witness for C10's information-request frame property. -/
theorem C10_witness :
    (process_email_and_generate_quote 9 c10DB {} 1).map (fun p => p.1.responses) =
      .ok c10DB.responses := by
  have hok : (process_email_and_generate_quote 9 c10DB {} 1).isOk = true := by decide
  cases hcase : process_email_and_generate_quote 9 c10DB {} 1 with
  | error e => rw [hcase] at hok; exact Bool.noConfusion hok
  | ok p =>
    obtain ⟨d, s⟩ := p
    have hresp := C10_send_email_frame_effect.2 9 c10DB {} 1 c10Row 1 d s
      (by decide) rfl rfl (by decide) rfl hcase
    simp only [Except.map, hresp]

end EmailQuote
